import Mathlib

/-!
Shallow embedding of the glitter scene/document engine
(`src/sceneDoc.ts`, `src/compactDoc.ts`, `src/layers.ts`, `src/index.ts`).

Modelling conventions:
* JS numbers are modelled as `Int` (all rects, sizes and counters hold
  integers in this program); `Number.isFinite` checks are therefore
  vacuously true and are dropped.
* JS `Record<string, unknown>` meta objects are modelled as association
  lists `List (String × String)`; `Object.keys(m).length > 0` becomes
  list non-emptiness.  An absent (`undefined`) field is `Option.none`.
* JS `Set<string>` accumulators are modelled as `List String` grown at
  the end, membership via `List.contains`.
* Functions that `throw` are modelled with `Except String`; mutating
  methods that may throw after having already written state return
  `Scene × Except String α` so that the state at throw time is visible.
* `Uint8Array` pixel buffers are `List Nat`; `buffer.fill(0)` keeps the
  length, `buffer[i] |= m` is `List.set` at `i` (out-of-range writes are
  dropped, as for a `Uint8Array` of fixed length they cannot occur at
  in-range indices and the code bounds-checks before writing).
-/

namespace Glitter

/-- JS `Record<string, unknown>` meta object, modelled as an association list. -/
abbrev MetaObj := List (String × String)

/-- `Rect` from `src/sceneDoc.ts`. -/
structure Rect where
  x : Int
  y : Int
  w : Int
  h : Int
deriving DecidableEq

/-- `BoxComponentDoc` / `ImageComponentDoc` from `src/sceneDoc.ts`; the
`type` field is kept as a string because `validateSceneDoc` checks it at
runtime. -/
structure ComponentDoc where
  id : String
  type : String
  layerId : String
  rect : Rect
  meta : Option MetaObj
deriving DecidableEq

/-- `LayerDoc` from `src/sceneDoc.ts`. -/
structure LayerDoc where
  id : String
  name : String
  visible : Bool
deriving DecidableEq

/-- The `size` field of a `SceneDoc`. -/
structure Size where
  widthCells : Int
  heightCells : Int
deriving DecidableEq

/-- The `state` field of a `SceneDoc`. -/
structure SceneState where
  nextId : Int
deriving DecidableEq

/-- `SceneDoc` from `src/sceneDoc.ts`.  `schemaVersion` and `units` are
kept as runtime values because `validateSceneDoc` checks them. -/
structure SceneDoc where
  schemaVersion : Int
  units : String
  size : Size
  layers : List LayerDoc
  components : List ComponentDoc
  state : SceneState
  meta : Option MetaObj
deriving DecidableEq

/-- `validateRect` from `src/sceneDoc.ts` (the finiteness check is
vacuous over `Int`). -/
def validateRect (r : Rect) : Except String Unit :=
  if r.w < 1 ∨ r.h < 1 then .error "Invalid rect: w/h must be >= 1"
  else .ok ()

/-- The layer loop of `validateSceneDoc`: walks `doc.layers` threading the
`layerIds` set (modelled as a list); returns the collected ids. -/
def checkLayers : List LayerDoc → List String → Except String (List String)
  | [], seen => .ok seen
  | l :: rest, seen =>
    if l.id ≠ l.name then .error "Layer id must equal name"
    else if seen.contains l.id then .error "Duplicate layer name/id"
    else checkLayers rest (seen ++ [l.id])

/-- The component loop of `validateSceneDoc`: duplicate-id, supported-type,
layer-reference and rect checks, in source order. -/
def checkComponents : List ComponentDoc → List String → List String → Except String Unit
  | [], _, _ => .ok ()
  | c :: rest, layerIds, seen =>
    if seen.contains c.id then .error "Duplicate component id"
    else if c.type ≠ "box" ∧ c.type ≠ "image" then .error "Unsupported component type"
    else if ¬ layerIds.contains c.layerId then .error "Component references missing layer"
    else
      match validateRect c.rect with
      | .error e => .error e
      | .ok _ => checkComponents rest layerIds (seen ++ [c.id])

/-- `validateSceneDoc` from `src/sceneDoc.ts`. -/
def validateSceneDoc (d : SceneDoc) : Except String Unit :=
  if d.schemaVersion ≠ 1 then .error "Unsupported schemaVersion"
  else if d.units ≠ "px" then .error "Unsupported units"
  else
    match checkLayers d.layers [] with
    | .error e => .error e
    | .ok layerIds =>
      match checkComponents d.components layerIds [] with
      | .error e => .error e
      | .ok _ =>
        if d.state.nextId < 1 then .error "Invalid state.nextId" else .ok ()

/-! ### Compact serialization (`src/compactDoc.ts`) -/

/-- A `CompactNode` tuple `[type, id, layerId, [x,y,w,h], meta?]`.  The rect
is kept as a raw `List Int` because `validateRectArray` checks its length
at runtime. -/
structure CompactNode where
  type : String
  id : String
  layerId : String
  rect : List Int
  meta : Option MetaObj
deriving DecidableEq

/-- `CompactDoc` from `src/compactDoc.ts`. -/
structure CompactDoc where
  v : Int
  w : Int
  h : Int
  layers : List String
  nodes : List CompactNode
  meta : Option MetaObj
deriving DecidableEq

/-- `CompactWarning` from `src/compactDoc.ts` (the `type` field is always
`"unsupportedNode"`). -/
structure CompactWarning where
  type : String
  nodeType : String
  nodeId : String
deriving DecidableEq

/-- `SUPPORTED_NODE_TYPES` from `src/compactDoc.ts`. -/
def SUPPORTED_NODE_TYPES : List String := ["box", "text", "image", "button"]

/-- JS truthiness test `meta && Object.keys(meta).length > 0`. -/
def metaNonempty : Option MetaObj → Bool
  | some m => decide (0 < m.length)
  | none => false

/-- `rectToArray` from `src/compactDoc.ts`. -/
def rectToArray (r : Rect) : List Int := [r.x, r.y, r.w, r.h]

/-- `arrayToRect` from `src/compactDoc.ts` (destructuring of a length-4
array that `validateRectArray` has already checked). -/
def arrayToRect (l : List Int) : Rect :=
  { x := l.getD 0 0, y := l.getD 1 0, w := l.getD 2 0, h := l.getD 3 0 }

/-- `compactFromSceneDoc` from `src/compactDoc.ts`. -/
def compactFromSceneDoc (doc : SceneDoc) : CompactDoc :=
  let widthPx := doc.size.widthCells * 2
  let heightPx := doc.size.heightCells * 4
  let nodes := doc.components.filterMap (fun comp =>
    if comp.type ≠ "box" ∧ comp.type ≠ "image" then none
    else some { type := comp.type, id := comp.id, layerId := comp.layerId,
                rect := rectToArray comp.rect,
                meta := if metaNonempty comp.meta then comp.meta else none })
  { v := 1, w := widthPx, h := heightPx,
    layers := doc.layers.map (fun l => l.id),
    nodes := nodes,
    meta := if metaNonempty doc.meta then doc.meta else none }

/-- `validateRectArray` from `src/compactDoc.ts`. -/
def validateRectArray (rect : List Int) : Except String Unit :=
  if rect.length ≠ 4 then .error "Invalid rect: expected [x,y,w,h]"
  else if rect.getD 2 0 < 1 ∨ rect.getD 3 0 < 1 then
    .error "Invalid rect: w/h must be >= 1"
  else .ok ()

/-- The layer loop of `validateCompactDoc`. -/
def checkCompactLayers : List String → List String → Except String (List String)
  | [], seen => .ok seen
  | lid :: rest, seen =>
    if lid.length = 0 then .error "Invalid layer id"
    else if seen.contains lid then .error "Duplicate layer id"
    else checkCompactLayers rest (seen ++ [lid])

/-- The node loop of `validateCompactDoc`: runs over every node (of any
type) accumulating the `nodeIds` set. -/
def checkNodes : List CompactNode → List String → List String → Except String Unit
  | [], _, _ => .ok ()
  | n :: rest, layerIds, seen =>
    if n.id.length = 0 then .error "Invalid node id"
    else if seen.contains n.id then .error "Duplicate node id"
    else if ¬ layerIds.contains n.layerId then .error "Unknown layer id"
    else
      match validateRectArray n.rect with
      | .error e => .error e
      | .ok _ => checkNodes rest layerIds (seen ++ [n.id])

/-- `validateCompactDoc` from `src/compactDoc.ts` (checks in source
order; finiteness is vacuous over `Int`). -/
def validateCompactDoc (doc : CompactDoc) : Except String Unit :=
  if doc.v ≠ 1 then .error "Unsupported compact schema version"
  else if doc.w < 2 ∨ doc.h < 4 then .error "Invalid size: w/h too small"
  else if doc.w % 2 ≠ 0 ∨ doc.h % 4 ≠ 0 then
    .error "Invalid size: w must be divisible by 2 and h by 4"
  else
    match checkCompactLayers doc.layers [] with
    | .error e => .error e
    | .ok layerIds => checkNodes doc.nodes layerIds []

/-- The node loop of `sceneDocFromCompact`: produces, in source order, the
collected warnings, the reconstructed components and the `componentIds`
set. -/
def convertNodes : List CompactNode → List CompactWarning × List ComponentDoc × List String
  | [] => ([], [], [])
  | n :: rest =>
    let (ws, cs, ids) := convertNodes rest
    if ¬ SUPPORTED_NODE_TYPES.contains n.type then
      ({ type := "unsupportedNode", nodeType := n.type, nodeId := n.id } :: ws, cs, ids)
    else if n.type ≠ "box" ∧ n.type ≠ "image" then
      ({ type := "unsupportedNode", nodeType := n.type, nodeId := n.id } :: ws, cs, ids)
    else
      (ws,
       { id := n.id, type := n.type, layerId := n.layerId,
         rect := arrayToRect n.rect, meta := n.meta } :: cs,
       n.id :: ids)

/-- The component-id string `c${n}`. -/
def cname (n : Nat) : String := "c" ++ Nat.repr n

/-- The `while (ids.has(`c${nextId}`)) nextId++` loop of
`nextComponentId` in `src/compactDoc.ts`, with explicit fuel. -/
def nextComponentIdLoop (ids : List String) : Nat → Nat → Nat
  | 0, n => n
  | fuel + 1, n =>
    if ids.contains (cname n) then nextComponentIdLoop ids fuel (n + 1) else n

/-- `nextComponentId` from `src/compactDoc.ts`: smallest `c<N>` not in
`ids`.  Fuel `ids.length + 1` is enough: among the `ids.length + 2`
distinct candidate names at least one is unused (proved below). -/
def nextComponentId (ids : List String) : Nat :=
  nextComponentIdLoop ids (ids.length + 1) 1

/-- `sceneDocFromCompact` from `src/compactDoc.ts`. -/
def sceneDocFromCompact (doc : CompactDoc) :
    Except String (SceneDoc × List CompactWarning) :=
  match validateCompactDoc doc with
  | .error e => .error e
  | .ok _ =>
    let widthCells := doc.w / 2
    let heightCells := doc.h / 4
    let layerDocs := doc.layers.map (fun id => ({ id := id, name := id, visible := true } : LayerDoc))
    let (warnings, components, componentIds) := convertNodes doc.nodes
    .ok ({ schemaVersion := 1, units := "px",
           size := { widthCells := widthCells, heightCells := heightCells },
           layers := layerDocs,
           components := components,
           state := { nextId := Int.ofNat (nextComponentId componentIds) },
           meta := if metaNonempty doc.meta then doc.meta else none },
         warnings)

/-! ### Scene runtime (`src/layers.ts`) -/

/-- `BRAILLE_DOTS` from `src/layers.ts`, indexed `[dotY][dotX]`. -/
def BRAILLE_DOTS : List (List Nat) :=
  [[0x01, 0x08], [0x02, 0x10], [0x04, 0x20], [0x40, 0x80]]

/-- Runtime `Layer` from `src/layers.ts`: a `LayerDoc` plus a pixel buffer. -/
structure Layer where
  id : String
  name : String
  visible : Bool
  widthCells : Int
  heightCells : Int
  buffer : List Nat
deriving DecidableEq

/-- A fresh `Uint8Array(widthCells * heightCells)`. -/
def mkBuffer (w h : Int) : List Nat := List.replicate (w * h).toNat 0

/-- The `Scene` class state from `src/layers.ts`. -/
structure Scene where
  widthCells : Int
  heightCells : Int
  doc : SceneDoc
  layers : List Layer
  activeLayerId : Option String
deriving DecidableEq

/-- The `Scene` constructor. -/
def Scene.new (widthCells heightCells : Int) : Scene :=
  { widthCells := widthCells, heightCells := heightCells,
    doc := { schemaVersion := 1, units := "px",
             size := { widthCells := widthCells, heightCells := heightCells },
             layers := [], components := [], state := { nextId := 1 },
             meta := none },
    layers := [], activeLayerId := none }

/-- `get widthPx()` from `src/layers.ts`. -/
def Scene.widthPx (s : Scene) : Int := s.widthCells * 2

/-- `get heightPx()` from `src/layers.ts`. -/
def Scene.heightPx (s : Scene) : Int := s.heightCells * 4

/-- `addLayer` from `src/layers.ts`.  The error branch performs no writes;
the success branch appends the layer doc and runtime layer and makes the
new layer active. -/
def Scene.addLayer (s : Scene) (name : String) : Scene × Except String Layer :=
  if s.doc.layers.any (fun l => l.id = name) then
    (s, .error "Layer already exists")
  else
    let layer : Layer :=
      { id := name, name := name, visible := true,
        widthCells := s.widthCells, heightCells := s.heightCells,
        buffer := mkBuffer s.widthCells s.heightCells }
    ({ s with
        doc := { s.doc with layers := s.doc.layers ++ [{ id := name, name := name, visible := true }] },
        layers := s.layers ++ [layer],
        activeLayerId := some name },
     .ok layer)

/-- `setActiveLayer` from `src/layers.ts`. -/
def Scene.setActiveLayer (s : Scene) (name : String) : Scene × Except String Unit :=
  match s.layers.find? (fun l => l.id = name) with
  | none => (s, .error "Layer not found")
  | some layer => ({ s with activeLayerId := some layer.id }, .ok ())

/-- `toDoc` from `src/layers.ts` (the deep clone is the identity on pure
values). -/
def Scene.toDoc (s : Scene) : SceneDoc := s.doc

/-- `Scene.fromDoc` from `src/layers.ts`: validates, rebuilds runtime
layers with fresh buffers, and activates the last declared layer. -/
def Scene.fromDoc (doc : SceneDoc) : Except String Scene :=
  match validateSceneDoc doc with
  | .error e => .error e
  | .ok _ =>
    .ok { widthCells := doc.size.widthCells, heightCells := doc.size.heightCells,
          doc := doc,
          layers := doc.layers.map (fun l =>
            { id := l.id, name := l.name, visible := l.visible,
              widthCells := doc.size.widthCells, heightCells := doc.size.heightCells,
              buffer := mkBuffer doc.size.widthCells doc.size.heightCells }),
          activeLayerId := (doc.layers.getLast?).map (fun l => l.id) }

/-- `private nextComponentId` from `src/layers.ts`: mints `c<nextId>` and
increments the counter (this write happens even if the caller then
throws). -/
def Scene.nextComponentId (s : Scene) : String × Scene :=
  (cname s.doc.state.nextId.toNat,
   { s with doc := { s.doc with state := { nextId := s.doc.state.nextId + 1 } } })

/-- The options object of `addBox`. -/
structure AddBoxOpts where
  layerId : Option String
  rect : Rect
  id : Option String
  meta : Option MetaObj
deriving DecidableEq

/-- The tail of `addBox` after the id has been chosen: collision check,
then append the component. -/
def Scene.addBoxCommit (s1 : Scene) (layerId id : String) (r : Rect) (m : Option MetaObj) :
    Scene × Except String ComponentDoc :=
  if s1.doc.components.any (fun c => c.id = id) then
    (s1, .error "Component already exists")
  else
    let comp : ComponentDoc :=
      { id := id, type := "box", layerId := layerId, rect := r, meta := m }
    ({ s1 with doc := { s1.doc with components := s1.doc.components ++ [comp] } },
     .ok comp)

/-- The body of `addBox` once the target layer id has been resolved:
JS `!layerId` (which also rejects the empty string), existence check,
rect bounds check, then mint or take the id — minting increments
`state.nextId` before the collision check runs. -/
def Scene.addBoxInLayer (s : Scene) (opts : AddBoxOpts) (layerId : String) :
    Scene × Except String ComponentDoc :=
  if layerId = "" then (s, .error "No active layer")
  else if ¬ s.doc.layers.any (fun l => l.id = layerId) then
    (s, .error "Layer not found")
  else
    let r := opts.rect
    if r.x < 0 ∨ r.y < 0 ∨ r.w < 1 ∨ r.h < 1 ∨
       r.x + r.w > s.widthPx ∨ r.y + r.h > s.heightPx then
      (s, .error "cannot create box outside of the canvas")
    else
      match opts.id with
      | some i => s.addBoxCommit layerId i opts.rect opts.meta
      | none =>
        (s.nextComponentId).2.addBoxCommit layerId (s.nextComponentId).1 opts.rect opts.meta

/-- `addBox` from `src/layers.ts`: resolve the target layer
(`opts.layerId ?? this.activeLayerId`), then run the checked body. -/
def Scene.addBox (s : Scene) (opts : AddBoxOpts) : Scene × Except String ComponentDoc :=
  match (match opts.layerId with
         | some l => some l
         | none => s.activeLayerId) with
  | none => (s, .error "No active layer")
  | some layerId => s.addBoxInLayer opts layerId

/-- `getComponentById` from `src/layers.ts`. -/
def Scene.getComponentById (s : Scene) (id : String) : Option ComponentDoc :=
  s.doc.components.find? (fun c => c.id = id)

/-- In-place mutation of the first component with the given id (JS
`find` then `comp.rect = {...rect}`). -/
def updateFirstRect : List ComponentDoc → String → Rect → List ComponentDoc
  | [], _, _ => []
  | c :: rest, id, r =>
    if c.id = id then { c with rect := r } :: rest
    else c :: updateFirstRect rest id r

/-- `updateBoxRect` from `src/layers.ts`. -/
def Scene.updateBoxRect (s : Scene) (id : String) (rect : Rect) : Scene × Except String Unit :=
  match s.getComponentById id with
  | none => (s, .error "Component not found")
  | some comp =>
    if comp.type ≠ "box" then (s, .error "Component is not a box")
    else
      ({ s with doc := { s.doc with components := updateFirstRect s.doc.components id rect } },
       .ok ())

/-- Modelled from the spec: `Scene.removeComponent` is invoked from the CLI
(`deleteSelectedComponent` in `src/index.ts`) but its implementation is
absent from the sources; §4.2 of the spec states "`removeComponent(id)`:
deletes the component; fails silently (no-op) if absent".  Modelled as a
total filter on the component list. -/
def Scene.removeComponent (s : Scene) (id : String) : Scene :=
  { s with doc := { s.doc with components := s.doc.components.filter (fun c => c.id ≠ id) } }

/-! ### Drawing primitives and rendering (`src/layers.ts`) -/

/-- Write `buffer[index] |= mask` (`List.set` drops out-of-range writes,
which the callers' bounds checks already exclude). -/
def bufOr (buf : List Nat) (index mask : Nat) : List Nat :=
  buf.set index (buf.getD index 0 ||| mask)

/-- Replace the first layer satisfying `p` (the one JS `find` returns and
then mutates in place). -/
def updateFirstLayer : List Layer → (Layer → Bool) → (Layer → Layer) → List Layer
  | [], _, _ => []
  | l :: rest, p, f =>
    if p l then f l :: rest else l :: updateFirstLayer rest p f

/-- `setPixel` from `src/layers.ts`: writes one braille dot into the
active layer's buffer; out-of-range pixels are silently dropped.  (The
`none` branch models the `activeLayer` getter throwing; within `render`
the active layer always exists, so it is modelled as a no-op.) -/
def Scene.setPixel (s : Scene) (x y : Int) : Scene :=
  match s.layers.find? (fun l => s.activeLayerId = some l.id) with
  | none => s
  | some layer =>
    let cellX := Int.fdiv x 2
    let cellY := Int.fdiv y 4
    if cellX < 0 ∨ cellY < 0 ∨ cellX ≥ layer.widthCells ∨ cellY ≥ layer.heightCells then
      s
    else
      let dotX := (x % 2).toNat
      let dotY := (y % 4).toNat
      let mask := (BRAILLE_DOTS.getD dotY []).getD dotX 0
      let index := (cellY * layer.widthCells + cellX).toNat
      { s with layers := (updateFirstLayer s.layers (fun l => s.activeLayerId = some l.id)
          (fun l => { l with buffer := bufOr l.buffer index mask })) }

/-- `drawBox` from `src/layers.ts`: the two `for` loops over the
horizontal and vertical edges. -/
def Scene.drawBox (s : Scene) (x y w h : Int) : Scene :=
  let s1 := (List.range w.toNat).foldl
    (fun acc k =>
      ((acc.setPixel (x + Int.ofNat k) y).setPixel (x + Int.ofNat k) (y + h - 1))) s
  (List.range h.toNat).foldl
    (fun acc k =>
      ((acc.setPixel x (y + Int.ofNat k)).setPixel (x + w - 1) (y + Int.ofNat k))) s1

/-- `clamp` from `src/layers.ts`. -/
def clamp (n lo hi : Int) : Int := max lo (min hi n)

/-- `setPixelInBuffer` from `src/layers.ts`. -/
def setPixelInBuffer (buffer : List Nat) (widthCells heightCells : Int) (x y : Int) : List Nat :=
  let cellX := Int.fdiv x 2
  let cellY := Int.fdiv y 4
  if cellX < 0 ∨ cellY < 0 ∨ cellX ≥ widthCells ∨ cellY ≥ heightCells then buffer
  else
    let dotX := (x % 2).toNat
    let dotY := (y % 4).toNat
    let mask := (BRAILLE_DOTS.getD dotY []).getD dotX 0
    let index := (cellY * widthCells + cellX).toNat
    bufOr buffer index mask

/-- The values taken by `for (v = start; v <= stop; v += 2)`. -/
def dashRange (start stop : Int) : List Int :=
  if stop < start then []
  else (List.range ((stop - start).toNat / 2 + 1)).map (fun k => start + 2 * Int.ofNat k)

/-- `drawDashedRect` from `src/layers.ts`: clamp the rect's corners into
the canvas, then stroke the four edges with stride 2. -/
def drawDashedRect (buffer : List Nat) (widthCells heightCells : Int) (rect : Rect) : List Nat :=
  let maxX := widthCells * 2 - 1
  let maxY := heightCells * 4 - 1
  let xStart := clamp rect.x 0 maxX
  let yStart := clamp rect.y 0 maxY
  let xEnd := clamp (rect.x + rect.w - 1) 0 maxX
  let yEnd := clamp (rect.y + rect.h - 1) 0 maxY
  let buffer1 := (dashRange xStart xEnd).foldl
    (fun b x => setPixelInBuffer (setPixelInBuffer b widthCells heightCells x yStart)
                  widthCells heightCells x yEnd) buffer
  (dashRange yStart yEnd).foldl
    (fun b y => setPixelInBuffer (setPixelInBuffer b widthCells heightCells xStart y)
                  widthCells heightCells xEnd y) buffer1

/-- `OverlayRect` from `src/layers.ts`. -/
structure OverlayRect where
  rect : Rect
  color : Option String
deriving DecidableEq

def colorActive : String := "\x1b[38;5;208m"

def colorGrayDefault : String := "\x1b[38;5;245m"

def colorReset : String := "\x1b[0m"

/-- `layer.buffer.fill(0)`. -/
def clearLayer (l : Layer) : Layer :=
  { l with buffer := List.replicate l.buffer.length 0 }

/-- The buffer-clearing loop at the top of `render`. -/
def clearScene (s : Scene) : Scene :=
  { s with layers := s.layers.map clearLayer }

/-- One iteration of `render`'s rasterization loop: skip non-box
components, resolve the owning runtime layer, skip missing or invisible
layers, make that layer active and draw the component's rectangle. -/
def rasterizeComponent (s : Scene) (comp : ComponentDoc) : Scene :=
  if comp.type ≠ "box" then s
  else
    match s.layers.find? (fun l => l.id = comp.layerId) with
    | none => s
    | some runtimeLayer =>
      if ¬ runtimeLayer.visible then s
      else
        ({ s with activeLayerId := some runtimeLayer.id } : Scene).drawBox
          comp.rect.x comp.rect.y comp.rect.w comp.rect.h

/-- `render`'s rasterization phase: draw every component, then restore the
previously active layer. -/
def rasterizeAll (s : Scene) : Scene :=
  let prevActive := s.activeLayerId
  let s1 := s.doc.components.foldl rasterizeComponent s
  { s1 with activeLayerId := prevActive }

/-- `final[i] |= layer.buffer[i]` over the whole composite buffer
(reading past a short buffer contributes 0, as JS `x |= undefined`
leaves `x` unchanged). -/
def orInto (final buf : List Nat) : List Nat :=
  (List.range final.length).map (fun i => final.getD i 0 ||| buf.getD i 0)

/-- `render`'s compositing phase: OR every visible layer's buffer into a
fresh buffer, in document layer order. -/
def composite (s : Scene) : List Nat :=
  s.doc.layers.foldl
    (fun final layerDoc =>
      if ¬ layerDoc.visible then final
      else
        match s.layers.find? (fun l => l.id = layerDoc.id) with
        | none => final
        | some layer => orInto final layer.buffer)
    (List.replicate (s.widthCells * s.heightCells).toNat 0)

/-- `render`'s active-mask phase: 1 wherever the visible active layer has
a non-zero cell. -/
def activeMask (s : Scene) : List Nat :=
  let len := (s.widthCells * s.heightCells).toNat
  match s.layers.find? (fun l => s.activeLayerId = some l.id) with
  | some al =>
    if al.visible then
      (List.range len).map (fun i => if al.buffer.getD i 0 ≠ 0 then 1 else 0)
    else List.replicate len 0
  | none => List.replicate len 0

/-- The mutable locals of `render`'s output scan. -/
structure RenderAcc where
  out : String
  colorOn : Bool
  overlayOn : Bool
deriving DecidableEq

/-- One cell of `render`'s output scan: the three-state color machine
followed by the braille glyph. -/
def renderCell (colorOverlay : String) (final overlayBuf : List Nat) (hasOverlay : Bool)
    (mask : List Nat) (index : Nat) (st : RenderAcc) : RenderAcc :=
  let isActive := mask.getD index 0 = 1
  let overlayValue := if hasOverlay then overlayBuf.getD index 0 else 0
  let useOverlay := overlayValue ≠ 0
  let cellValue := final.getD index 0 ||| overlayValue
  let st1 :=
    if useOverlay then
      if ¬ st.overlayOn then
        { st with out := st.out ++ colorOverlay, overlayOn := true, colorOn := false }
      else st
    else
      let stA := if st.overlayOn then
          { st with out := st.out ++ colorReset, overlayOn := false }
        else st
      let stB := if isActive ∧ ¬ stA.colorOn then
          { stA with out := stA.out ++ colorActive, colorOn := true }
        else stA
      if ¬ isActive ∧ stB.colorOn then
        { stB with out := stB.out ++ colorReset, colorOn := false }
      else stB
  { st1 with out := st1.out ++ String.singleton (Char.ofNat (0x2800 + cellValue)) }

/-- `render`'s output scan over a cleared-and-rasterized scene: rasterize,
composite, draw the overlay, compute the active mask, then the linear
row/column scan with per-row color reset and newline. -/
def renderFromCleared (colorOverlay : String) (overlay : Option OverlayRect)
    (cleared : Scene) : String :=
  let rasterized := rasterizeAll cleared
  let final := composite rasterized
  let overlayBuf := match overlay with
    | some o => drawDashedRect (List.replicate final.length 0)
        rasterized.widthCells rasterized.heightCells o.rect
    | none => []
  let hasOverlay := overlay.isSome
  let mask := activeMask rasterized
  let wc := rasterized.widthCells.toNat
  let hc := rasterized.heightCells.toNat
  let finalAcc := (List.range hc).foldl
    (fun st y =>
      let st1 := (List.range wc).foldl
        (fun st2 x => renderCell colorOverlay final overlayBuf hasOverlay mask (y * wc + x) st2)
        st
      let st2 := if st1.overlayOn ∨ st1.colorOn then
          { st1 with out := st1.out ++ colorReset, colorOn := false, overlayOn := false }
        else st1
      { st2 with out := st2.out ++ "\n" })
    ({ out := "", colorOn := false, overlayOn := false } : RenderAcc)
  finalAcc.out

/-- `render` from `src/layers.ts`: returns the output string together with
the scene as it stands after the call (buffers redrawn, active layer
restored). -/
def Scene.render (s : Scene) (overlay : Option OverlayRect) : String × Scene :=
  let colorOverlay := match overlay with
    | some o => o.color.getD colorGrayDefault
    | none => colorGrayDefault
  let cleared := clearScene s
  (renderFromCleared colorOverlay overlay cleared, rasterizeAll cleared)

/-! ### Undo manager (`src/index.ts`) -/

/-- `UndoEntry` from `src/index.ts` (the recorded command AST is CLI
bookkeeping and not part of the restored state). -/
structure UndoEntry where
  doc : SceneDoc
  activeLayerId : Option String
deriving DecidableEq

/-- `createUndoEntry` from `src/index.ts`: snapshot `{doc: scene.toDoc(),
activeLayerId}` of the pre-mutation scene. -/
def createUndoEntry (s : Scene) : UndoEntry :=
  { doc := s.toDoc, activeLayerId := s.activeLayerId }

/-- `undoLastCommand` from `src/index.ts`: pop the most recent snapshot,
rebuild the scene via `Scene.fromDoc`, and restore the recorded active
layer.  Returns the remaining stack and the new live scene (unchanged on
an empty stack). -/
def undoLastCommand (stack : List UndoEntry) (live : Scene) :
    Except String (List UndoEntry × Scene) :=
  match stack with
  | [] => .ok ([], live)
  | entry :: rest =>
    match Scene.fromDoc entry.doc with
    | .error e => .error e
    | .ok scene => .ok (rest, { scene with activeLayerId := entry.activeLayerId })

/-! ### Helper lemmas -/

theorem contains_eq_false_iff (l : List String) (a : String) :
    (l.contains a = false) ↔ a ∉ l := by
  simp [List.contains]

theorem filter_id_ne_of_not_mem (l : List ComponentDoc) (id : String)
    (h : ∀ c ∈ l, c.id ≠ id) : l.filter (fun c => c.id ≠ id) = l := by
  induction l with
  | nil => rfl
  | cons c rest ih =>
    have hc := h c (List.mem_cons_self c rest)
    simp only [List.filter_cons]
    rw [if_pos (by simpa using hc), ih (fun x hx => h x (List.mem_cons_of_mem c hx))]

theorem filter_id_ne_eq_erase (l : List ComponentDoc) (c : ComponentDoc)
    (hmem : c ∈ l) (hnd : (l.map ComponentDoc.id).Nodup) :
    l.filter (fun x => x.id ≠ c.id) = l.erase c := by
  induction l with
  | nil => cases hmem
  | cons a rest ih =>
    simp only [List.map_cons, List.nodup_cons] at hnd
    rcases List.mem_cons.mp hmem with rfl | hrest
    · rw [List.erase_cons_head]
      simp only [List.filter_cons]
      rw [if_neg (by simp)]
      exact filter_id_ne_of_not_mem rest c.id
        (fun x hx heq => hnd.1 (heq ▸ List.mem_map_of_mem ComponentDoc.id hx))
    · have hne : a ≠ c := by
        rintro rfl
        exact hnd.1 (List.mem_map_of_mem ComponentDoc.id hrest)
      have hida : a.id ≠ c.id := by
        intro h
        exact hnd.1 (h ▸ List.mem_map_of_mem ComponentDoc.id hrest)
      rw [List.erase_cons_tail]
      · simp only [List.filter_cons]
        rw [if_pos (by simpa using hida), ih hrest hnd.2]
      · simpa using hne

/-! ### C3: removeComponent -/

/-- C3: `removeComponent(id)` (modelled from the spec, its implementation
being absent from the sources while `src/index.ts` calls it) never throws
(it is a total function); with an id matching no component it leaves the
scene unchanged; with the id of an existing component — under the
document invariant that component ids are unique — it deletes exactly
that component from the component list. -/
theorem removeComponent_spec (s : Scene) (id : String) :
    ((¬ s.doc.components.any (fun c => c.id = id)) → s.removeComponent id = s) ∧
    (∀ c ∈ s.doc.components, c.id = id →
      (s.doc.components.map ComponentDoc.id).Nodup →
      (s.removeComponent id).doc.components = s.doc.components.erase c) := by
  constructor
  · intro h
    have habs : ∀ c ∈ s.doc.components, c.id ≠ id := by
      intro c hc heq
      exact h (List.any_eq_true.mpr ⟨c, hc, by simpa using heq⟩)
    show { s with doc := { s.doc with components := _ } } = s
    rw [filter_id_ne_of_not_mem _ _ habs]
  · intro c hc heq hnd
    show s.doc.components.filter (fun x => x.id ≠ id) = _
    rw [← heq, filter_id_ne_eq_erase s.doc.components c hc hnd]

def exScene : Scene := ((Scene.new 2 2).addLayer "a").1

def exBoxed : Scene :=
  (exScene.addBox { layerId := none, rect := { x := 0, y := 0, w := 1, h := 1 },
                    id := none, meta := none }).1

def exBox : ComponentDoc :=
  { id := "c1", type := "box", layerId := "a",
    rect := { x := 0, y := 0, w := 1, h := 1 }, meta := none }

/-- Witness for C3 at a concrete scene holding one box `c1`: removing the
absent id `"zz"` is the identity, and removing `"c1"` erases exactly that
component. -/
theorem removeComponent_spec_witness :
    (exBoxed.removeComponent "zz" = exBoxed) ∧
    (exBoxed.removeComponent "c1").doc.components = exBoxed.doc.components.erase exBox :=
  ⟨(removeComponent_spec exBoxed "zz").1 (by decide),
   (removeComponent_spec exBoxed "c1").2 exBox (by decide) (by decide) (by decide)⟩

/-! ### C6: undo restores the prior document -/

/-- C6: after pushing the snapshot `{doc := toDoc s0, activeLayerId}` of a
prior scene `s0` whose document is valid, `undoLastCommand` — applied to
any later live scene, i.e. after an arbitrary mutating command — pops the
snapshot and produces a scene whose document equals `s0`'s field for
field (including `state.nextId`) and whose active layer id is the
recorded one. -/
theorem undo_restores_prior_document (s0 live : Scene) (stack : List UndoEntry)
    (h : validateSceneDoc s0.toDoc = .ok ()) :
    ∃ restored,
      undoLastCommand (createUndoEntry s0 :: stack) live = .ok (stack, restored) ∧
      restored.doc = s0.doc ∧ restored.activeLayerId = s0.activeLayerId := by
  have h' : validateSceneDoc s0.doc = .ok () := h
  simp only [undoLastCommand, createUndoEntry, Scene.toDoc, Scene.fromDoc, h']
  exact ⟨_, rfl, rfl, rfl⟩

/-- Witness for C6: a concrete valid one-layer scene, mutated by adding a
box, then undone. -/
theorem undo_restores_prior_document_witness :
    ∃ restored,
      undoLastCommand (createUndoEntry exScene :: []) exBoxed = .ok ([], restored) ∧
      restored.doc = exScene.doc ∧ restored.activeLayerId = exScene.activeLayerId :=
  undo_restores_prior_document exScene exBoxed [] rfl

/-! ### C10: node-id uniqueness is enforced across all nodes -/

theorem checkNodes_ok_ids_nodup :
    ∀ (ns : List CompactNode) (layerIds seen : List String),
      checkNodes ns layerIds seen = .ok () →
      (ns.map CompactNode.id).Nodup ∧ ∀ n ∈ ns, n.id ∉ seen := by
  intro ns
  induction ns with
  | nil => intro _ _ _; simp
  | cons n rest ih =>
    intro layerIds seen h
    unfold checkNodes at h
    split at h
    · cases h
    rename_i hlen
    split at h
    · cases h
    rename_i hcont
    split at h
    · cases h
    rename_i hlayer
    split at h
    · cases h
    · obtain ⟨hnd, hseen⟩ := ih layerIds (seen ++ [n.id]) h
      have hni : n.id ∉ seen := by
        intro hmem
        exact hcont (by simpa [List.contains] using hmem)
      refine ⟨?_, ?_⟩
      · simp only [List.map_cons, List.nodup_cons]
        refine ⟨?_, hnd⟩
        intro hmem
        obtain ⟨m, hm, hmeq⟩ := List.mem_map.mp hmem
        have := hseen m hm
        simp [hmeq] at this
      · intro m hm
        rcases List.mem_cons.mp hm with rfl | hmr
        · exact hni
        · intro hmem
          exact hseen m hmr (List.mem_append_left _ hmem)

theorem validateCompactDoc_ok_checkNodes (d : CompactDoc)
    (h : validateCompactDoc d = .ok ()) :
    ∃ layerIds, checkNodes d.nodes layerIds [] = .ok () := by
  unfold validateCompactDoc at h
  split at h
  · cases h
  · split at h
    · cases h
    · split at h
      · cases h
      · split at h
        · cases h
        · exact ⟨_, h⟩

/-- C10: for every compact document whose nodes array contains two nodes
with the same id, `sceneDocFromCompact` throws a hard validation error —
`validateCompactDoc`'s duplicate-id scan runs over all nodes, including
those of unsupported type that the conversion loop would only soft-warn
about. -/
theorem duplicate_node_id_hard_error (d : CompactDoc)
    (h : ¬ (d.nodes.map CompactNode.id).Nodup) :
    ∃ e, sceneDocFromCompact d = .error e := by
  cases hv : validateCompactDoc d with
  | error e => exact ⟨e, by simp [sceneDocFromCompact, hv]⟩
  | ok u =>
    cases u
    obtain ⟨L, hL⟩ := validateCompactDoc_ok_checkNodes d hv
    exact absurd (checkNodes_ok_ids_nodup d.nodes L [] hL).1 h

/-- A compact document with two nodes sharing the id `"n1"`, one of them
of the unsupported type `"text"`. -/
def dupNodesDoc : CompactDoc :=
  { v := 1, w := 4, h := 4, layers := ["a"],
    nodes := [ { type := "text", id := "n1", layerId := "a", rect := [0, 0, 1, 1], meta := none },
               { type := "box", id := "n1", layerId := "a", rect := [0, 0, 1, 1], meta := none } ],
    meta := none }

/-- Witness for C10: the duplicate pair `"n1"`/`"n1"` — with one
duplicate of soft-warning type `"text"` — is rejected hard. -/
theorem duplicate_node_id_hard_error_witness :
    ¬ (dupNodesDoc.nodes.map CompactNode.id).Nodup ∧
    ∃ e, sceneDocFromCompact dupNodesDoc = .error e :=
  ⟨by decide, duplicate_node_id_hard_error dupNodesDoc (by decide)⟩

/-! ### C2: atomicity of the public Scene mutations -/

theorem addLayer_error_unchanged (s : Scene) (name : String) (e : String)
    (h : (s.addLayer name).2 = .error e) : (s.addLayer name).1 = s := by
  by_cases hc : s.doc.layers.any (fun l => l.id = name) = true
  · simp [Scene.addLayer, hc]
  · simp [Scene.addLayer, hc] at h

theorem setActiveLayer_error_unchanged (s : Scene) (name : String) (e : String)
    (h : (s.setActiveLayer name).2 = .error e) : (s.setActiveLayer name).1 = s := by
  cases hf : s.layers.find? (fun l => l.id = name) with
  | none => simp [Scene.setActiveLayer, hf]
  | some l => simp [Scene.setActiveLayer, hf] at h

theorem updateBoxRect_error_unchanged (s : Scene) (id : String) (r : Rect) (e : String)
    (h : (s.updateBoxRect id r).2 = .error e) : (s.updateBoxRect id r).1 = s := by
  cases hf : s.getComponentById id with
  | none => simp [Scene.updateBoxRect, hf]
  | some c =>
    by_cases ht : c.type = "box"
    · simp [Scene.updateBoxRect, hf, ht] at h
    · simp [Scene.updateBoxRect, hf, ht]

theorem addBoxCommit_cases (s1 : Scene) (layerId id : String) (r : Rect) (m : Option MetaObj) :
    ((s1.addBoxCommit layerId id r m).1 = s1 ∧
      (s1.addBoxCommit layerId id r m).2 = .error "Component already exists") ∨
    ∃ c, (s1.addBoxCommit layerId id r m).2 = .ok c := by
  by_cases hc : s1.doc.components.any (fun c => c.id = id) = true
  · left; constructor <;> simp [Scene.addBoxCommit, hc]
  · right
    refine ⟨{ id := id, type := "box", layerId := layerId, rect := r, meta := m }, ?_⟩
    simp [Scene.addBoxCommit, hc]

theorem addBoxInLayer_cases (s : Scene) (opts : AddBoxOpts) (layerId : String) :
    ((s.addBoxInLayer opts layerId).1 = s ∨
      (opts.id = none ∧ (s.addBoxInLayer opts layerId).1 = (s.nextComponentId).2)) ∨
    ∃ c, (s.addBoxInLayer opts layerId).2 = .ok c := by
  unfold Scene.addBoxInLayer
  by_cases h1 : layerId = ""
  · rw [if_pos h1]; left; left; rfl
  · rw [if_neg h1]
    by_cases h2 : s.doc.layers.any (fun l => l.id = layerId) = true
    · rw [if_neg (fun hC => hC h2)]
      by_cases h3 : opts.rect.x < 0 ∨ opts.rect.y < 0 ∨ opts.rect.w < 1 ∨ opts.rect.h < 1 ∨
          opts.rect.x + opts.rect.w > s.widthPx ∨ opts.rect.y + opts.rect.h > s.heightPx
      · rw [if_pos h3]; left; left; rfl
      · rw [if_neg h3]
        cases hoid : opts.id with
        | some i =>
          rcases addBoxCommit_cases s layerId i opts.rect opts.meta with ⟨ha, _⟩ | ⟨c, hc⟩
          · exact Or.inl (Or.inl ha)
          · exact Or.inr ⟨c, hc⟩
        | none =>
          rcases addBoxCommit_cases (s.nextComponentId).2 layerId (s.nextComponentId).1
              opts.rect opts.meta with ⟨ha, _⟩ | ⟨c, hc⟩
          · exact Or.inl (Or.inr ⟨rfl, ha⟩)
          · exact Or.inr ⟨c, hc⟩
    · rw [if_pos (fun hC => absurd hC h2)]; left; left; rfl

theorem addBox_total_cases (s : Scene) (opts : AddBoxOpts) :
    ((s.addBox opts).1 = s ∨ (opts.id = none ∧ (s.addBox opts).1 = (s.nextComponentId).2)) ∨
    ∃ c, (s.addBox opts).2 = .ok c := by
  unfold Scene.addBox
  cases hopt : opts.layerId with
  | some l => exact addBoxInLayer_cases s opts l
  | none =>
    cases hact : s.activeLayerId with
    | none => simp
    | some l => exact addBoxInLayer_cases s opts l

/-- C2 (amended): `addLayer`, `setActiveLayer` and `updateBoxRect` are
atomic — whenever the call throws, the scene (document, runtime layers,
active layer, `state.nextId`) is exactly what it was before.  `addBox` is
atomic except on one path: when it auto-mints an id (no explicit
`opts.id`) that collides with an existing component id, it throws having
already incremented `state.nextId` (the increment in `nextComponentId`
precedes the collision check); all other state is unchanged there too. -/
theorem scene_mutations_atomic (s : Scene) :
    (∀ name e, (s.addLayer name).2 = .error e → (s.addLayer name).1 = s) ∧
    (∀ name e, (s.setActiveLayer name).2 = .error e → (s.setActiveLayer name).1 = s) ∧
    (∀ id r e, (s.updateBoxRect id r).2 = .error e → (s.updateBoxRect id r).1 = s) ∧
    (∀ opts e, (s.addBox opts).2 = .error e →
      (s.addBox opts).1 = s ∨
      (opts.id = none ∧ (s.addBox opts).1 = (s.nextComponentId).2)) := by
  refine ⟨addLayer_error_unchanged s, setActiveLayer_error_unchanged s,
          updateBoxRect_error_unchanged s, ?_⟩
  intro opts e h
  rcases addBox_total_cases s opts with hok | ⟨c, hc⟩
  · exact hok
  · rw [hc] at h
    cases h

/-- The auto-id options used in the C2 scenario. -/
def exAutoOpts : AddBoxOpts :=
  { layerId := none, rect := { x := 1, y := 1, w := 1, h := 1 }, id := none, meta := none }

/-- One layer `"a"` and one box added with the explicit id `"c1"` —
`state.nextId` is still 1 here, so the next auto-mint collides. -/
def exExplicitBoxed : Scene :=
  (exScene.addBox { layerId := none, rect := { x := 0, y := 0, w := 1, h := 1 },
                    id := some "c1", meta := none }).1

/-- Counterexample for C2 as stated: on `exExplicitBoxed` (one layer
`"a"`, one box with explicit id `"c1"`, `state.nextId = 1`) an auto-id
`addBox` throws (the minted id `"c1"` collides) yet the wrapped state is
not exactly what it was before the call — `state.nextId` has moved from
1 to 2. -/
theorem scene_mutations_atomic_counterexample :
    (exExplicitBoxed.addBox exAutoOpts).2 = .error "Component already exists" ∧
    (exExplicitBoxed.addBox exAutoOpts).1 ≠ exExplicitBoxed ∧
    (exExplicitBoxed.addBox exAutoOpts).1.doc.state.nextId = 2 ∧
    exExplicitBoxed.doc.state.nextId = 1 := by
  refine ⟨rfl, by decide, by decide, by decide⟩

/-- Witness for C2 (amended), instantiating every conjunct at concrete
inputs: duplicate `addLayer`, missing `setActiveLayer` target, missing
`updateBoxRect` target, and the auto-id collision path of `addBox`. -/
theorem scene_mutations_atomic_witness :
    ((exScene.addLayer "a").1 = exScene) ∧
    ((exScene.setActiveLayer "zz").1 = exScene) ∧
    ((exScene.updateBoxRect "zz" { x := 0, y := 0, w := 1, h := 1 }).1 = exScene) ∧
    ((exExplicitBoxed.addBox exAutoOpts).1 = exExplicitBoxed ∨
      (exAutoOpts.id = none ∧
        (exExplicitBoxed.addBox exAutoOpts).1 = (exExplicitBoxed.nextComponentId).2)) :=
  ⟨(scene_mutations_atomic exScene).1 "a" "Layer already exists" rfl,
   (scene_mutations_atomic exScene).2.1 "zz" "Layer not found" rfl,
   (scene_mutations_atomic exScene).2.2.1 "zz" { x := 0, y := 0, w := 1, h := 1 }
     "Component not found" rfl,
   (scene_mutations_atomic exExplicitBoxed).2.2.2 exAutoOpts "Component already exists" rfl⟩

/-! ### C5: addBox boundary behavior -/

/-- C5: with the target layer resolved and existing, `addBox` fails with
the out-of-bounds error whenever `rect.x + rect.w > widthPx`; it fails
validation (same throw site) whenever `rect.w = 0`; and a rect exactly
touching the canvas edge (`x = 0`, `x + w = widthPx`, `0 ≤ y`,
`y + h ≤ heightPx`, `w ≥ 1`, `h ≥ 1`) whose id is free is accepted and
the component is appended to the document. -/
theorem addBox_boundary (s : Scene) (opts : AddBoxOpts) (layerId : String)
    (hres : (match opts.layerId with
             | some l => some l
             | none => s.activeLayerId) = some layerId)
    (hne : layerId ≠ "")
    (hlayer : s.doc.layers.any (fun l => l.id = layerId) = true) :
    (opts.rect.x + opts.rect.w > s.widthPx →
      (s.addBox opts).2 = .error "cannot create box outside of the canvas") ∧
    (opts.rect.w = 0 →
      (s.addBox opts).2 = .error "cannot create box outside of the canvas") ∧
    (opts.rect.x = 0 → opts.rect.x + opts.rect.w = s.widthPx →
     0 ≤ opts.rect.y → opts.rect.y + opts.rect.h ≤ s.heightPx →
     1 ≤ opts.rect.w → 1 ≤ opts.rect.h →
     s.doc.components.any (fun c => c.id = (match opts.id with
        | some i => i
        | none => (s.nextComponentId).1)) = false →
     ∃ c, (s.addBox opts).2 = .ok c ∧ c.rect = opts.rect ∧
       (s.addBox opts).1.doc.components = s.doc.components ++ [c]) := by
  have huf : s.addBox opts = s.addBoxInLayer opts layerId := by
    unfold Scene.addBox
    rw [hres]
  refine ⟨?_, ?_, ?_⟩
  · intro hx
    rw [huf]
    unfold Scene.addBoxInLayer
    rw [if_neg hne, if_neg (fun hC => hC hlayer), if_pos (by omega)]
  · intro hw
    rw [huf]
    unfold Scene.addBoxInLayer
    rw [if_neg hne, if_neg (fun hC => hC hlayer), if_pos (by omega)]
  · intro hx0 hxw hy0 hyh hw1 hh1 hfree
    rw [huf]
    unfold Scene.addBoxInLayer
    rw [if_neg hne, if_neg (fun hC => hC hlayer), if_neg (by omega)]
    cases hoid : opts.id with
    | some i =>
      rw [hoid] at hfree
      dsimp only at hfree ⊢
      unfold Scene.addBoxCommit
      rw [if_neg (by simp [hfree])]
      exact ⟨_, rfl, rfl, rfl⟩
    | none =>
      rw [hoid] at hfree
      dsimp only at hfree ⊢
      unfold Scene.addBoxCommit
      rw [if_neg (by dsimp only [Scene.nextComponentId] at hfree ⊢; simp [hfree])]
      exact ⟨_, rfl, rfl, rfl⟩

def c5scene : Scene := ((Scene.new 80 24).addLayer "frame").1

def c5optsWide : AddBoxOpts :=
  { layerId := some "frame", rect := { x := 8, y := 8, w := 200, h := 10 },
    id := none, meta := none }

def c5optsZeroW : AddBoxOpts :=
  { layerId := some "frame", rect := { x := 8, y := 8, w := 0, h := 10 },
    id := none, meta := none }

def c5optsEdge : AddBoxOpts :=
  { layerId := some "frame", rect := { x := 0, y := 0, w := 160, h := 96 },
    id := none, meta := none }

/-- Witness for C5 on the spec's 160×96 px (80×24 cell) canvas with layer
`"frame"`: rect `{8,8,200,10}` exceeds width 160 and fails; a zero-width
rect fails; the full-canvas rect `{0,0,160,96}` touches every edge and is
appended. -/
theorem addBox_boundary_witness :
    ((c5scene.addBox c5optsWide).2 = .error "cannot create box outside of the canvas") ∧
    ((c5scene.addBox c5optsZeroW).2 = .error "cannot create box outside of the canvas") ∧
    (∃ c, (c5scene.addBox c5optsEdge).2 = .ok c ∧
      c.rect = { x := 0, y := 0, w := 160, h := 96 } ∧
      (c5scene.addBox c5optsEdge).1.doc.components = c5scene.doc.components ++ [c]) :=
  ⟨(addBox_boundary c5scene c5optsWide "frame" rfl (by decide) (by decide)).1 (by decide),
   (addBox_boundary c5scene c5optsZeroW "frame" rfl (by decide) (by decide)).2.1 rfl,
   (addBox_boundary c5scene c5optsEdge "frame" rfl (by decide) (by decide)).2.2
     rfl (by decide) (by decide) (by decide) (by decide) (by decide) (by decide)⟩

/-! ### C7: unsupported node types produce one warning and are dropped -/

theorem convertNodes_cons_unsupported (m : CompactNode) (rest : List CompactNode)
    (hm : m.type ≠ "box" ∧ m.type ≠ "image") :
    convertNodes (m :: rest) =
      ({ type := "unsupportedNode", nodeType := m.type, nodeId := m.id } :: (convertNodes rest).1,
       (convertNodes rest).2.1, (convertNodes rest).2.2) := by
  rcases hrec : convertNodes rest with ⟨ws, cs, ids⟩
  conv_lhs => rw [convertNodes]
  rw [hrec]
  dsimp only
  by_cases hc : SUPPORTED_NODE_TYPES.contains m.type = true
  · rw [if_neg (fun hC => hC hc), if_pos hm]
  · rw [if_pos hc]

theorem convertNodes_cons_supported (m : CompactNode) (rest : List CompactNode)
    (hm : m.type = "box" ∨ m.type = "image") :
    convertNodes (m :: rest) =
      ((convertNodes rest).1,
       { id := m.id, type := m.type, layerId := m.layerId,
         rect := arrayToRect m.rect, meta := m.meta } :: (convertNodes rest).2.1,
       m.id :: (convertNodes rest).2.2) := by
  have hc : SUPPORTED_NODE_TYPES.contains m.type = true := by
    rcases hm with h | h <;> rw [h] <;> rfl
  have hni : ¬ (m.type ≠ "box" ∧ m.type ≠ "image") := by
    rcases hm with h | h
    · exact fun hC => hC.1 h
    · exact fun hC => hC.2 h
  rcases hrec : convertNodes rest with ⟨ws, cs, ids⟩
  conv_lhs => rw [convertNodes]
  rw [hrec]
  dsimp only
  rw [if_neg (fun hC => hC hc), if_neg hni]

theorem convertNodes_ids_sub (ns : List CompactNode) :
    (∀ w ∈ (convertNodes ns).1, w.nodeId ∈ ns.map CompactNode.id) ∧
    (∀ c ∈ (convertNodes ns).2.1, c.id ∈ ns.map CompactNode.id) := by
  induction ns with
  | nil => exact ⟨fun _ h => absurd h (List.not_mem_nil _), fun _ h => absurd h (List.not_mem_nil _)⟩
  | cons m rest ih =>
    by_cases hm : m.type ≠ "box" ∧ m.type ≠ "image"
    · rw [convertNodes_cons_unsupported m rest hm]
      refine ⟨?_, ?_⟩
      · intro w hw
        rcases List.mem_cons.mp hw with rfl | hw'
        · exact List.mem_cons_self _ _
        · exact List.mem_cons_of_mem _ (ih.1 w hw')
      · intro c hc
        exact List.mem_cons_of_mem _ (ih.2 c hc)
    · have hm' : m.type = "box" ∨ m.type = "image" := by
        by_contra hno
        push_neg at hno
        exact hm hno
      rw [convertNodes_cons_supported m rest hm']
      refine ⟨?_, ?_⟩
      · intro w hw
        exact List.mem_cons_of_mem _ (ih.1 w hw)
      · intro c hc
        rcases List.mem_cons.mp hc with rfl | hc'
        · exact List.mem_cons_self _ _
        · exact List.mem_cons_of_mem _ (ih.2 c hc')

theorem convertNodes_unsupported_mem (ns : List CompactNode) (n : CompactNode)
    (hmem : n ∈ ns) (hn : n.type ≠ "box" ∧ n.type ≠ "image")
    (hnd : (ns.map CompactNode.id).Nodup) :
    (∀ c ∈ (convertNodes ns).2.1, c.id ≠ n.id) ∧
    (convertNodes ns).1.count
      { type := "unsupportedNode", nodeType := n.type, nodeId := n.id } = 1 := by
  induction ns with
  | nil => cases hmem
  | cons m rest ih =>
    simp only [List.map_cons, List.nodup_cons] at hnd
    rcases List.mem_cons.mp hmem with rfl | hrest
    · rw [convertNodes_cons_unsupported n rest hn]
      have hnot : n.id ∉ rest.map CompactNode.id := hnd.1
      refine ⟨?_, ?_⟩
      · intro c hc heq
        exact hnot (heq ▸ (convertNodes_ids_sub rest).2 c hc)
      · rw [List.count_cons_self]
        have hzero : (convertNodes rest).1.count
            { type := "unsupportedNode", nodeType := n.type, nodeId := n.id } = 0 := by
          rw [List.count_eq_zero]
          intro hwmem
          exact hnot ((convertNodes_ids_sub rest).1 _ hwmem)
        rw [hzero]
    · have hmid : m.id ≠ n.id := by
        intro heq
        exact hnd.1 (heq ▸ List.mem_map_of_mem CompactNode.id hrest)
      obtain ⟨ihc, ihw⟩ := ih hrest hnd.2
      by_cases hm : m.type ≠ "box" ∧ m.type ≠ "image"
      · rw [convertNodes_cons_unsupported m rest hm]
        refine ⟨ihc, ?_⟩
        rw [List.count_cons_of_ne ?_, ihw]
        intro heq
        exact hmid (congrArg CompactWarning.nodeId heq).symm
      · have hm' : m.type = "box" ∨ m.type = "image" := by
          by_contra hno
          push_neg at hno
          exact hm hno
        rw [convertNodes_cons_supported m rest hm']
        refine ⟨?_, ihw⟩
        intro c hc
        rcases List.mem_cons.mp hc with rfl | hc'
        · exact hmid
        · exact ihc c hc'

/-- C7: for every compact document that passes envelope validation and a
node in it whose type is neither `"box"` nor `"image"`,
`sceneDocFromCompact` succeeds (no throw), the reconstructed document
contains no component with that node's id, and the warnings list counts
exactly one `{type := "unsupportedNode", nodeType, nodeId}` entry for
it. -/
theorem unsupported_node_soft_warning (d : CompactDoc) (n : CompactNode)
    (hv : validateCompactDoc d = .ok ()) (hmem : n ∈ d.nodes)
    (hn : n.type ≠ "box" ∧ n.type ≠ "image") :
    ∃ doc' ws, sceneDocFromCompact d = .ok (doc', ws) ∧
      (∀ c ∈ doc'.components, c.id ≠ n.id) ∧
      ws.count { type := "unsupportedNode", nodeType := n.type, nodeId := n.id } = 1 := by
  have hnd : (d.nodes.map CompactNode.id).Nodup := by
    obtain ⟨L, hL⟩ := validateCompactDoc_ok_checkNodes d hv
    exact (checkNodes_ok_ids_nodup d.nodes L [] hL).1
  obtain ⟨hc, hw⟩ := convertNodes_unsupported_mem d.nodes n hmem hn hnd
  unfold sceneDocFromCompact
  rw [hv]
  exact ⟨_, _, rfl, hc, hw⟩

/-- A compact document holding one `"text"` node and one `"box"` node. -/
def textNodeDoc : CompactDoc :=
  { v := 1, w := 4, h := 4, layers := ["a"],
    nodes := [ { type := "text", id := "t1", layerId := "a", rect := [0, 0, 1, 1], meta := none },
               { type := "box", id := "b1", layerId := "a", rect := [0, 0, 1, 1], meta := none } ],
    meta := none }

/-- Witness for C7: loading `textNodeDoc` succeeds, drops the `"text"`
node `t1`, and produces exactly one warning for it. -/
theorem unsupported_node_soft_warning_witness :
    ∃ doc' ws, sceneDocFromCompact textNodeDoc = .ok (doc', ws) ∧
      (∀ c ∈ doc'.components, c.id ≠ "t1") ∧
      ws.count { type := "unsupportedNode", nodeType := "text", nodeId := "t1" } = 1 :=
  unsupported_node_soft_warning textNodeDoc
    { type := "text", id := "t1", layerId := "a", rect := [0, 0, 1, 1], meta := none }
    rfl (by decide) (by decide)

/-! ### C9: overlay rects are clamped, component pixels are clipped -/

theorem clamp_bounds (a lo hi : Int) (h : lo ≤ hi) :
    lo ≤ clamp a lo hi ∧ clamp a lo hi ≤ hi := by
  unfold clamp
  exact ⟨le_max_left lo (min hi a), max_le h (min_le_left hi a)⟩

theorem clamp_eq_self (a lo hi : Int) (h1 : lo ≤ a) (h2 : a ≤ hi) :
    clamp a lo hi = a := by
  unfold clamp
  rw [min_eq_right h2, max_eq_right h1]

theorem clamp_eq_hi (a lo hi : Int) (h1 : lo ≤ hi) (h2 : hi ≤ a) :
    clamp a lo hi = hi := by
  unfold clamp
  rw [min_eq_left h2, max_eq_right h1]

/-- The rect with the corner coordinates that `drawDashedRect` computes
by clamping into `[0, wc*2-1] × [0, hc*4-1]`. -/
def clampRect (wc hc : Int) (r : Rect) : Rect :=
  let maxX := wc * 2 - 1
  let maxY := hc * 4 - 1
  let xS := clamp r.x 0 maxX
  let yS := clamp r.y 0 maxY
  let xE := clamp (r.x + r.w - 1) 0 maxX
  let yE := clamp (r.y + r.h - 1) 0 maxY
  { x := xS, y := yS, w := xE - xS + 1, h := yE - yS + 1 }

/-- C9: on a canvas of at least one cell, `drawDashedRect` draws exactly
the clamped rect (clamping is idempotent, so drawing `r` and drawing
`clampRect r` write the same buffer); the clamped corners lie inside
`[0, wc*2-1] × [0, hc*4-1]`; a rect extending past the right/bottom edge
has its end edge drawn exactly on the canvas border; by contrast,
`Scene.setPixel` silently discards any out-of-range pixel, leaving the
scene (hence every buffer) unmodified. -/
theorem overlay_clamped_pixels_clipped (buffer : List Nat) (wc hc : Int) (r : Rect)
    (hw : 1 ≤ wc) (hh : 1 ≤ hc) :
    (drawDashedRect buffer wc hc r = drawDashedRect buffer wc hc (clampRect wc hc r)) ∧
    (0 ≤ (clampRect wc hc r).x ∧
     (clampRect wc hc r).x + (clampRect wc hc r).w - 1 ≤ wc * 2 - 1 ∧
     0 ≤ (clampRect wc hc r).y ∧
     (clampRect wc hc r).y + (clampRect wc hc r).h - 1 ≤ hc * 4 - 1) ∧
    ((wc * 2 - 1 ≤ r.x + r.w - 1 →
      (clampRect wc hc r).x + (clampRect wc hc r).w - 1 = wc * 2 - 1) ∧
     (hc * 4 - 1 ≤ r.y + r.h - 1 →
      (clampRect wc hc r).y + (clampRect wc hc r).h - 1 = hc * 4 - 1)) ∧
    (∀ (s : Scene) (x y : Int) (l : Layer),
      s.layers.find? (fun a => s.activeLayerId = some a.id) = some l →
      (Int.fdiv x 2 < 0 ∨ Int.fdiv y 4 < 0 ∨
       Int.fdiv x 2 ≥ l.widthCells ∨ Int.fdiv y 4 ≥ l.heightCells) →
      s.setPixel x y = s) := by
  have hmgx : (0 : Int) ≤ wc * 2 - 1 := by omega
  have hmgy : (0 : Int) ≤ hc * 4 - 1 := by omega
  obtain ⟨hxS0, hxSm⟩ := clamp_bounds r.x 0 (wc * 2 - 1) hmgx
  obtain ⟨hyS0, hySm⟩ := clamp_bounds r.y 0 (hc * 4 - 1) hmgy
  obtain ⟨hxE0, hxEm⟩ := clamp_bounds (r.x + r.w - 1) 0 (wc * 2 - 1) hmgx
  obtain ⟨hyE0, hyEm⟩ := clamp_bounds (r.y + r.h - 1) 0 (hc * 4 - 1) hmgy
  refine ⟨?_, ?_, ?_, ?_⟩
  · unfold drawDashedRect clampRect
    dsimp only
    have ex : clamp r.x 0 (wc * 2 - 1) +
        (clamp (r.x + r.w - 1) 0 (wc * 2 - 1) - clamp r.x 0 (wc * 2 - 1) + 1) - 1 =
        clamp (r.x + r.w - 1) 0 (wc * 2 - 1) := by ring
    have ey : clamp r.y 0 (hc * 4 - 1) +
        (clamp (r.y + r.h - 1) 0 (hc * 4 - 1) - clamp r.y 0 (hc * 4 - 1) + 1) - 1 =
        clamp (r.y + r.h - 1) 0 (hc * 4 - 1) := by ring
    rw [ex, ey, clamp_eq_self _ _ _ hxS0 hxSm, clamp_eq_self _ _ _ hyS0 hySm,
        clamp_eq_self _ _ _ hxE0 hxEm, clamp_eq_self _ _ _ hyE0 hyEm]
  · unfold clampRect
    dsimp only
    refine ⟨hxS0, by omega, hyS0, by omega⟩
  · unfold clampRect
    dsimp only
    constructor
    · intro hpast
      rw [clamp_eq_hi _ _ _ hmgx hpast]
      omega
    · intro hpast
      rw [clamp_eq_hi _ _ _ hmgy hpast]
      omega
  · intro s x y l hfind hcond
    unfold Scene.setPixel
    rw [hfind]
    dsimp only
    rw [if_pos hcond]

/-- An overlay rect sticking out of the canvas on every side. -/
def exOverhangRect : Rect := { x := -5, y := -5, w := 20, h := 20 }

/-- Witness for C9 on a 2×2-cell canvas: the overhanging overlay rect
draws as its clamped version whose edges lie on the canvas border, while
`setPixel` at the out-of-range pixel `(-1, 0)` is a no-op. -/
theorem overlay_clamped_pixels_clipped_witness :
    (drawDashedRect (List.replicate 4 0) 2 2 exOverhangRect =
      drawDashedRect (List.replicate 4 0) 2 2 (clampRect 2 2 exOverhangRect)) ∧
    ((clampRect 2 2 exOverhangRect).x + (clampRect 2 2 exOverhangRect).w - 1 = 2 * 2 - 1) ∧
    (exScene.setPixel (-1) 0 = exScene) :=
  ⟨(overlay_clamped_pixels_clipped (List.replicate 4 0) 2 2 exOverhangRect
      (by decide) (by decide)).1,
   (overlay_clamped_pixels_clipped (List.replicate 4 0) 2 2 exOverhangRect
      (by decide) (by decide)).2.2.1.1 (by decide),
   (overlay_clamped_pixels_clipped (List.replicate 4 0) 2 2 exOverhangRect
      (by decide) (by decide)).2.2.2 exScene (-1) 0
      { id := "a", name := "a", visible := true, widthCells := 2, heightCells := 2,
        buffer := mkBuffer 2 2 } rfl (by decide)⟩

/-! ### C1: compact round trip -/

theorem checkLayers_ok :
    ∀ (ls : List LayerDoc) (seen out : List String),
      checkLayers ls seen = .ok out →
      out = seen ++ ls.map LayerDoc.id ∧ (∀ l ∈ ls, l.id = l.name) ∧
      (ls.map LayerDoc.id).Nodup ∧ ∀ l ∈ ls, l.id ∉ seen := by
  intro ls
  induction ls with
  | nil => intro seen out h; cases h; simp
  | cons l rest ih =>
    intro seen out h
    unfold checkLayers at h
    split at h
    · cases h
    rename_i hname
    split at h
    · cases h
    rename_i hcont
    obtain ⟨hout, hnames, hnd, hseen⟩ := ih (seen ++ [l.id]) out h
    have hli : l.id ∉ seen := fun hmem => hcont (by simpa [List.contains] using hmem)
    refine ⟨by simpa using hout, ?_, ?_, ?_⟩
    · intro m hm
      rcases List.mem_cons.mp hm with rfl | hmr
      · exact not_not.mp (by simpa using hname)
      · exact hnames m hmr
    · simp only [List.map_cons, List.nodup_cons]
      refine ⟨?_, hnd⟩
      intro hmem
      obtain ⟨m, hm, hmeq⟩ := List.mem_map.mp hmem
      have := hseen m hm
      simp [hmeq] at this
    · intro m hm
      rcases List.mem_cons.mp hm with rfl | hmr
      · exact hli
      · exact fun hmem => hseen m hmr (List.mem_append_left _ hmem)

theorem validateRect_ok_iff (r : Rect) :
    validateRect r = .ok () ↔ 1 ≤ r.w ∧ 1 ≤ r.h := by
  unfold validateRect
  constructor
  · intro h
    split at h
    · cases h
    · rename_i hc
      push_neg at hc
      omega
  · intro ⟨h1, h2⟩
    rw [if_neg (by omega)]

theorem checkComponents_ok :
    ∀ (cs : List ComponentDoc) (layerIds seen : List String),
      checkComponents cs layerIds seen = .ok () →
      (∀ c ∈ cs, (c.type = "box" ∨ c.type = "image") ∧
        layerIds.contains c.layerId = true ∧ 1 ≤ c.rect.w ∧ 1 ≤ c.rect.h ∧ c.id ∉ seen) ∧
      (cs.map ComponentDoc.id).Nodup := by
  intro cs
  induction cs with
  | nil => intro _ _ _; simp
  | cons c rest ih =>
    intro layerIds seen h
    unfold checkComponents at h
    split at h
    · cases h
    rename_i hcont
    split at h
    · cases h
    rename_i htype
    split at h
    · cases h
    rename_i hlayer
    split at h
    · cases h
    rename_i _ hrect
    obtain ⟨hall, hnd⟩ := ih layerIds (seen ++ [c.id]) h
    have hci : c.id ∉ seen := fun hmem => hcont (by simpa [List.contains] using hmem)
    have htype' : c.type = "box" ∨ c.type = "image" := by
      by_contra hno
      push_neg at hno
      exact htype hno
    have hlayer' : layerIds.contains c.layerId = true := not_not.mp hlayer
    obtain ⟨hw, hh⟩ := (validateRect_ok_iff c.rect).mp (by rw [hrect])
    refine ⟨?_, ?_⟩
    · intro m hm
      rcases List.mem_cons.mp hm with rfl | hmr
      · exact ⟨htype', hlayer', hw, hh, hci⟩
      · obtain ⟨t, lc, w1, h1, hs⟩ := hall m hmr
        exact ⟨t, lc, w1, h1, fun hmem => hs (List.mem_append_left _ hmem)⟩
    · simp only [List.map_cons, List.nodup_cons]
      refine ⟨?_, hnd⟩
      intro hmem
      obtain ⟨m, hm, hmeq⟩ := List.mem_map.mp hmem
      have := (hall m hm).2.2.2.2
      simp [hmeq] at this

theorem validateSceneDoc_ok_parts (d : SceneDoc) (h : validateSceneDoc d = .ok ()) :
    (∀ l ∈ d.layers, l.id = l.name) ∧ (d.layers.map LayerDoc.id).Nodup ∧
    checkComponents d.components (d.layers.map LayerDoc.id) [] = .ok () := by
  unfold validateSceneDoc at h
  split at h
  · cases h
  split at h
  · cases h
  split at h
  · cases h
  rename_i layerIds hcl
  split at h
  · cases h
  rename_i u hcc
  obtain ⟨hout, hnames, hnd, _⟩ := checkLayers_ok d.layers [] layerIds hcl
  cases u
  refine ⟨hnames, hnd, ?_⟩
  rw [hout] at hcc
  simpa using hcc

theorem checkCompactLayers_ok_of :
    ∀ (ls seen : List String),
      (∀ x ∈ ls, x.length ≠ 0) → ls.Nodup → (∀ x ∈ ls, x ∉ seen) →
      checkCompactLayers ls seen = .ok (seen ++ ls) := by
  intro ls
  induction ls with
  | nil => intro seen _ _ _; simp [checkCompactLayers]
  | cons l rest ih =>
    intro seen hne hnd hdisj
    unfold checkCompactLayers
    rw [if_neg (hne l (List.mem_cons_self l rest)),
        if_neg (fun hC => (hdisj l (List.mem_cons_self l rest)) (by simpa [List.contains] using hC))]
    rw [ih (seen ++ [l]) (fun x hx => hne x (List.mem_cons_of_mem l hx))
          (List.nodup_cons.mp hnd).2 ?_]
    · simp
    · intro x hx hmem
      rcases List.mem_append.mp hmem with hs | hl
      · exact hdisj x (List.mem_cons_of_mem l hx) hs
      · have hxl : x = l := by simpa using hl
        exact (List.nodup_cons.mp hnd).1 (hxl ▸ hx)

theorem checkNodes_ok_of :
    ∀ (ns : List CompactNode) (layerIds seen : List String),
      (∀ n ∈ ns, n.id.length ≠ 0 ∧ layerIds.contains n.layerId = true ∧
        validateRectArray n.rect = .ok ()) →
      (ns.map CompactNode.id).Nodup → (∀ n ∈ ns, n.id ∉ seen) →
      checkNodes ns layerIds seen = .ok () := by
  intro ns
  induction ns with
  | nil => intro _ _ _ _ _; rfl
  | cons n rest ih =>
    intro layerIds seen hprops hnd hdisj
    obtain ⟨hid, hlc, hrect⟩ := hprops n (List.mem_cons_self n rest)
    unfold checkNodes
    rw [if_neg hid,
        if_neg (fun hC => (hdisj n (List.mem_cons_self n rest)) (by simpa [List.contains] using hC)),
        if_neg (fun hC => hC hlc), hrect]
    apply ih layerIds (seen ++ [n.id]) (fun m hm => hprops m (List.mem_cons_of_mem n hm))
      (List.nodup_cons.mp (by simpa using hnd)).2
    intro m hm hmem
    rcases List.mem_append.mp hmem with hs | hl
    · exact hdisj m (List.mem_cons_of_mem n hm) hs
    · have hme : m.id = n.id := by simpa using hl
      have hnotin : n.id ∉ rest.map CompactNode.id := (List.nodup_cons.mp (by simpa using hnd)).1
      exact hnotin (hme ▸ List.mem_map_of_mem CompactNode.id hm)

theorem map_layers_congr (ls : List LayerDoc) (h : ∀ l ∈ ls, l.id = l.name) :
    ls.map (fun l => ({ id := l.id, name := l.id, visible := true } : LayerDoc)) =
    ls.map (fun l => ({ id := l.id, name := l.name, visible := true } : LayerDoc)) := by
  induction ls with
  | nil => rfl
  | cons l rest ih =>
    simp only [List.map_cons]
    rw [h l (List.mem_cons_self l rest), ih (fun x hx => h x (List.mem_cons_of_mem l hx))]

theorem normMeta_idem (m : Option MetaObj) :
    (if metaNonempty (if metaNonempty m then m else none)
       then (if metaNonempty m then m else none) else none) =
    (if metaNonempty m then m else none) := by
  cases m with
  | none => rfl
  | some l => cases l with
    | nil => rfl
    | cons a t => simp [metaNonempty]

theorem validateRectArray_rectToArray (r : Rect) (h1 : 1 ≤ r.w) (h2 : 1 ≤ r.h) :
    validateRectArray (rectToArray r) = .ok () := by
  unfold validateRectArray rectToArray
  rw [if_neg (by norm_num), if_neg (by show ¬(r.w < 1 ∨ r.h < 1); omega)]

theorem nodesOf_eq (cs : List ComponentDoc)
    (h : ∀ c ∈ cs, c.type = "box" ∨ c.type = "image") :
    cs.filterMap (fun comp =>
      if comp.type ≠ "box" ∧ comp.type ≠ "image" then none
      else some ({ type := comp.type, id := comp.id, layerId := comp.layerId,
                   rect := rectToArray comp.rect,
                   meta := if metaNonempty comp.meta then comp.meta else none } : CompactNode)) =
    cs.map (fun comp =>
      ({ type := comp.type, id := comp.id, layerId := comp.layerId,
         rect := rectToArray comp.rect,
         meta := if metaNonempty comp.meta then comp.meta else none } : CompactNode)) := by
  induction cs with
  | nil => rfl
  | cons c rest ih =>
    have hc := h c (List.mem_cons_self c rest)
    have hni : ¬ (c.type ≠ "box" ∧ c.type ≠ "image") := by
      rcases hc with h' | h'
      · exact fun hC => hC.1 h'
      · exact fun hC => hC.2 h'
    simp only [List.filterMap_cons, List.map_cons, if_neg hni]
    rw [ih (fun x hx => h x (List.mem_cons_of_mem c hx))]

theorem convertNodes_all_supported (ns : List CompactNode)
    (h : ∀ n ∈ ns, n.type = "box" ∨ n.type = "image") :
    convertNodes ns =
      ([],
       ns.map (fun n =>
         ({ id := n.id, type := n.type, layerId := n.layerId,
            rect := arrayToRect n.rect, meta := n.meta } : ComponentDoc)),
       ns.map CompactNode.id) := by
  induction ns with
  | nil => rfl
  | cons n rest ih =>
    rw [convertNodes_cons_supported n rest (h n (List.mem_cons_self n rest)),
        ih (fun m hm => h m (List.mem_cons_of_mem n hm))]
    rfl

theorem validateCompactDoc_roundtrip (d : SceneDoc)
    (hv : validateSceneDoc d = .ok ())
    (hwc : 1 ≤ d.size.widthCells) (hhc : 1 ≤ d.size.heightCells)
    (hlid : ∀ l ∈ d.layers, l.id.length ≠ 0)
    (hcid : ∀ c ∈ d.components, c.id.length ≠ 0) :
    validateCompactDoc (compactFromSceneDoc d) = .ok () := by
  obtain ⟨hnames, hlnd, hcc⟩ := validateSceneDoc_ok_parts d hv
  obtain ⟨hcprops, hcnd⟩ := checkComponents_ok d.components _ [] hcc
  have htypes : ∀ c ∈ d.components, c.type = "box" ∨ c.type = "image" :=
    fun c hc => (hcprops c hc).1
  have hnodes : (compactFromSceneDoc d).nodes = d.components.map (fun comp =>
      ({ type := comp.type, id := comp.id, layerId := comp.layerId,
         rect := rectToArray comp.rect,
         meta := if metaNonempty comp.meta then comp.meta else none } : CompactNode)) :=
    nodesOf_eq d.components htypes
  unfold validateCompactDoc
  rw [if_neg (show ¬ ((compactFromSceneDoc d).v ≠ 1) from fun hC => hC rfl),
      if_neg (show ¬ ((compactFromSceneDoc d).w < 2 ∨ (compactFromSceneDoc d).h < 4) by
        show ¬ (d.size.widthCells * 2 < 2 ∨ d.size.heightCells * 4 < 4)
        omega),
      if_neg (show ¬ ((compactFromSceneDoc d).w % 2 ≠ 0 ∨ (compactFromSceneDoc d).h % 4 ≠ 0) by
        show ¬ (d.size.widthCells * 2 % 2 ≠ 0 ∨ d.size.heightCells * 4 % 4 ≠ 0)
        omega)]
  have hlayers : (compactFromSceneDoc d).layers = d.layers.map LayerDoc.id := rfl
  rw [hlayers, checkCompactLayers_ok_of (d.layers.map LayerDoc.id) []
        (fun x hx => by
          obtain ⟨l, hl, rfl⟩ := List.mem_map.mp hx
          exact hlid l hl)
        hlnd (by simp)]
  dsimp only
  rw [hnodes]
  apply checkNodes_ok_of
  · intro n hn
    obtain ⟨c, hc, rfl⟩ := List.mem_map.mp hn
    obtain ⟨_, hlc, hw1, hh1, _⟩ := hcprops c hc
    refine ⟨hcid c hc, ?_, validateRectArray_rectToArray c.rect hw1 hh1⟩
    simpa using hlc
  · rw [List.map_map]
    exact hcnd
  · simp

/-- A valid scene document whose only layer is invisible and whose metas
are empty objects. -/
def c1doc : SceneDoc :=
  { schemaVersion := 1, units := "px", size := { widthCells := 1, heightCells := 1 },
    layers := [{ id := "a", name := "a", visible := false }],
    components := [{ id := "k", type := "box", layerId := "a",
                     rect := { x := 0, y := 0, w := 1, h := 1 }, meta := some [] }],
    state := { nextId := 1 }, meta := some [] }

/-- What the round trip of `c1doc` actually reconstructs. -/
def c1rt : SceneDoc :=
  { schemaVersion := 1, units := "px", size := { widthCells := 1, heightCells := 1 },
    layers := [{ id := "a", name := "a", visible := true }],
    components := [{ id := "k", type := "box", layerId := "a",
                     rect := { x := 0, y := 0, w := 1, h := 1 }, meta := none }],
    state := { nextId := 1 }, meta := none }

/-- Counterexample for C1 as stated: `c1doc` passes `validateSceneDoc`,
yet the round trip does not preserve its layers array — the layer's
`visible := false` flag comes back as `true`. -/
theorem sceneDoc_roundtrip_counterexample :
    validateSceneDoc c1doc = .ok () ∧
    sceneDocFromCompact (compactFromSceneDoc c1doc) = .ok (c1rt, []) ∧
    c1rt.layers ≠ c1doc.layers :=
  ⟨rfl, rfl, by decide⟩

/-- C1 (amended): for every document that passes `validateSceneDoc`,
whose canvas has at least one cell in each direction and whose layer and
component ids are non-empty strings (conditions the compact format's
stricter validation demands), `sceneDocFromCompact ∘ compactFromSceneDoc`
succeeds with no warnings and reconstructs a document equal to the
original in layer ids and names, components (modulo `meta` fields that
were empty objects, normalized to absent), size and document meta —
but the layers' `visible` flags are not preserved: every reconstructed
layer is visible. -/
theorem sceneDoc_roundtrip (d : SceneDoc)
    (hv : validateSceneDoc d = .ok ())
    (hwc : 1 ≤ d.size.widthCells) (hhc : 1 ≤ d.size.heightCells)
    (hlid : ∀ l ∈ d.layers, l.id.length ≠ 0)
    (hcid : ∀ c ∈ d.components, c.id.length ≠ 0) :
    ∃ d' ws, sceneDocFromCompact (compactFromSceneDoc d) = .ok (d', ws) ∧
      ws = [] ∧
      d'.layers = d.layers.map (fun l => { id := l.id, name := l.name, visible := true }) ∧
      d'.components = d.components.map
        (fun c => { c with meta := if metaNonempty c.meta then c.meta else none }) ∧
      d'.size = d.size ∧
      d'.meta = (if metaNonempty d.meta then d.meta else none) := by
  have hvc := validateCompactDoc_roundtrip d hv hwc hhc hlid hcid
  obtain ⟨hnames, hlnd, hcc⟩ := validateSceneDoc_ok_parts d hv
  obtain ⟨hcprops, hcnd⟩ := checkComponents_ok d.components _ [] hcc
  have htypes : ∀ c ∈ d.components, c.type = "box" ∨ c.type = "image" :=
    fun c hc => (hcprops c hc).1
  have hnodes : (compactFromSceneDoc d).nodes = d.components.map (fun comp =>
      ({ type := comp.type, id := comp.id, layerId := comp.layerId,
         rect := rectToArray comp.rect,
         meta := if metaNonempty comp.meta then comp.meta else none } : CompactNode)) :=
    nodesOf_eq d.components htypes
  have hconv : convertNodes (compactFromSceneDoc d).nodes =
      ([],
       d.components.map (fun c =>
         ({ id := c.id, type := c.type, layerId := c.layerId, rect := c.rect,
            meta := if metaNonempty c.meta then c.meta else none } : ComponentDoc)),
       d.components.map ComponentDoc.id) := by
    rw [hnodes, convertNodes_all_supported _ (by
      intro n hn
      obtain ⟨c, hc, rfl⟩ := List.mem_map.mp hn
      exact htypes c hc)]
    rw [List.map_map, List.map_map]
    rfl
  unfold sceneDocFromCompact
  rw [hvc]
  dsimp only
  rw [hconv]
  dsimp only
  refine ⟨_, _, rfl, rfl, ?_, rfl, ?_, ?_⟩
  · show (d.layers.map LayerDoc.id).map
        (fun id => ({ id := id, name := id, visible := true } : LayerDoc)) = _
    rw [List.map_map]
    have hcomp : ((fun id => ({ id := id, name := id, visible := true } : LayerDoc)) ∘ LayerDoc.id) =
        (fun l => ({ id := l.id, name := l.id, visible := true } : LayerDoc)) := rfl
    rw [hcomp]
    exact map_layers_congr d.layers hnames
  · show Size.mk (d.size.widthCells * 2 / 2) (d.size.heightCells * 4 / 4) = d.size
    rw [Int.mul_ediv_cancel _ (by norm_num), Int.mul_ediv_cancel _ (by norm_num)]
  · show (if metaNonempty (if metaNonempty d.meta then d.meta else none)
        then (if metaNonempty d.meta then d.meta else none) else none) = _
    exact normMeta_idem d.meta

/-- Witness for C1 (amended) at `c1doc`: the round trip succeeds without
warnings and reconstructs everything except the `visible` flag, which is
reset to `true`, with the empty metas normalized to absent. -/
theorem sceneDoc_roundtrip_witness :
    ∃ d' ws, sceneDocFromCompact (compactFromSceneDoc c1doc) = .ok (d', ws) ∧
      ws = [] ∧
      d'.layers = c1doc.layers.map (fun l => { id := l.id, name := l.name, visible := true }) ∧
      d'.components = c1doc.components.map
        (fun c => { c with meta := if metaNonempty c.meta then c.meta else none }) ∧
      d'.size = c1doc.size ∧
      d'.meta = (if metaNonempty c1doc.meta then c1doc.meta else none) :=
  sceneDoc_roundtrip c1doc rfl (by decide) (by decide) (by decide) (by decide)

/-! ### C4: the reconstructed nextId is the smallest unused c-number

The id `c<N>` is `cname N = "c" ++ Nat.repr N`; the pigeonhole argument
for the search loop's termination needs `Nat.repr` to be injective,
proved here by relating core's `Nat.toDigitsCore` to `Nat.digits`. -/

theorem digitChar_inj_lt10 :
    ∀ a < 10, ∀ b < 10, Nat.digitChar a = Nat.digitChar b → a = b := by decide

theorem map_digitChar_inj (l1 : List Nat) :
    ∀ (l2 : List Nat), (∀ x ∈ l1, x < 10) → (∀ x ∈ l2, x < 10) →
      l1.map Nat.digitChar = l2.map Nat.digitChar → l1 = l2 := by
  induction l1 with
  | nil =>
    intro l2 _ _ h
    cases l2 with
    | nil => rfl
    | cons b t2 => simp at h
  | cons a t ih =>
    intro l2 h1 h2 h
    cases l2 with
    | nil => simp at h
    | cons b t2 =>
      simp only [List.map_cons, List.cons.injEq] at h
      have hab := digitChar_inj_lt10 a (h1 a (List.mem_cons_self a t)) b
        (h2 b (List.mem_cons_self b t2)) h.1
      rw [hab, ih t2 (fun x hx => h1 x (List.mem_cons_of_mem a hx))
            (fun x hx => h2 x (List.mem_cons_of_mem b hx)) h.2]

theorem toDigitsCore_eq_digits (fuel : Nat) :
    ∀ (n : Nat) (acc : List Char), 0 < n → n < 10 ^ fuel →
      Nat.toDigitsCore 10 fuel n acc =
        ((Nat.digits 10 n).map Nat.digitChar).reverse ++ acc := by
  induction fuel with
  | zero =>
    intro n acc hn hlt
    simp at hlt
    omega
  | succ fuel ih =>
    intro n acc hn hlt
    have hdig : Nat.digits 10 n = n % 10 :: Nat.digits 10 (n / 10) :=
      Nat.digits_def' (by norm_num) hn
    rw [Nat.toDigitsCore]
    by_cases h10 : n / 10 = 0
    · rw [if_pos h10, hdig, h10]
      simp
    · rw [if_neg h10,
          ih (n / 10) (Nat.digitChar (n % 10) :: acc) (Nat.pos_of_ne_zero h10)
            (by
              rw [Nat.div_lt_iff_lt_mul (by norm_num)]
              calc n < 10 ^ (fuel + 1) := hlt
                _ = 10 ^ fuel * 10 := by ring),
          hdig]
      simp

theorem repr_eq_of_pos (n : Nat) (hn : 0 < n) :
    Nat.repr n = (((Nat.digits 10 n).map Nat.digitChar).reverse).asString := by
  unfold Nat.repr Nat.toDigits
  rw [toDigitsCore_eq_digits (n + 1) n [] hn
        (lt_of_lt_of_le (Nat.lt_pow_self (by norm_num) n)
          (Nat.pow_le_pow_right (by norm_num) (Nat.le_succ n)))]
  simp [List.asString]

theorem repr_data_eq_of_pos (n : Nat) (hn : 0 < n) :
    (Nat.repr n).data = ((Nat.digits 10 n).map Nat.digitChar).reverse := by
  rw [repr_eq_of_pos n hn]
  rfl

theorem digits_all_lt (n : Nat) : ∀ x ∈ Nat.digits 10 n, x < 10 :=
  fun _ hx => Nat.digits_lt_base (by norm_num) hx

theorem repr_pos_ne_zero (b : Nat) (hb : 0 < b) : Nat.repr b ≠ Nat.repr 0 := by
  intro h
  have hdata : ((Nat.digits 10 b).map Nat.digitChar).reverse = ['0'] := by
    rw [← repr_data_eq_of_pos b hb, h]
    rfl
  have hmap : (Nat.digits 10 b).map Nat.digitChar = ['0'] := by
    have := congrArg List.reverse hdata
    simpa using this
  have hd : Nat.digits 10 b = [0] := by
    apply map_digitChar_inj (Nat.digits 10 b) [0] (digits_all_lt b) (by norm_num)
    simpa using hmap
  have hof := Nat.ofDigits_digits 10 b
  rw [hd] at hof
  simp [Nat.ofDigits] at hof
  omega

theorem nat_repr_inj (a b : Nat) (h : Nat.repr a = Nat.repr b) : a = b := by
  rcases Nat.eq_zero_or_pos a with rfl | ha
  · rcases Nat.eq_zero_or_pos b with rfl | hb
    · rfl
    · exact absurd h.symm (repr_pos_ne_zero b hb)
  · rcases Nat.eq_zero_or_pos b with rfl | hb
    · exact absurd h (repr_pos_ne_zero a ha)
    · have hdata : ((Nat.digits 10 a).map Nat.digitChar).reverse =
          ((Nat.digits 10 b).map Nat.digitChar).reverse := by
        rw [← repr_data_eq_of_pos a ha, ← repr_data_eq_of_pos b hb, h]
      have hmap : (Nat.digits 10 a).map Nat.digitChar =
          (Nat.digits 10 b).map Nat.digitChar := by
        have := congrArg List.reverse hdata
        simpa using this
      have hd := map_digitChar_inj (Nat.digits 10 a) (Nat.digits 10 b)
        (digits_all_lt a) (digits_all_lt b) hmap
      have hof := Nat.ofDigits_digits 10 a
      rw [hd, Nat.ofDigits_digits] at hof
      exact hof.symm

theorem cname_inj : Function.Injective cname := by
  intro a b h
  unfold cname at h
  have hd := congrArg String.data h
  rw [String.data_append, String.data_append] at hd
  have hrepr : (Nat.repr a).data = (Nat.repr b).data := List.append_cancel_left hd
  exact nat_repr_inj a b (show (⟨(Nat.repr a).data⟩ : String) = ⟨(Nat.repr b).data⟩ from by rw [hrepr])

theorem exists_unused_cname (ids : List String) (start : Nat) :
    ∃ k, k ≤ ids.length ∧ cname (start + k) ∉ ids := by
  by_contra hno
  push_neg at hno
  have hinj : Function.Injective (fun k : Nat => cname (start + k)) := by
    intro x y hxy
    have := cname_inj hxy
    omega
  have hsub : (Finset.range (ids.length + 1)).image (fun k => cname (start + k)) ⊆
      ids.toFinset := by
    intro s hs
    obtain ⟨k, hk, rfl⟩ := Finset.mem_image.mp hs
    rw [List.mem_toFinset]
    exact hno k (Nat.lt_succ_iff.mp (Finset.mem_range.mp hk))
  have hcard := Finset.card_le_card hsub
  rw [Finset.card_image_of_injective _ hinj, Finset.card_range] at hcard
  have := List.toFinset_card_le ids
  omega

theorem nextComponentIdLoop_spec (ids : List String) :
    ∀ (fuel n : Nat), (∃ k, k ≤ fuel ∧ cname (n + k) ∉ ids) →
      (cname (nextComponentIdLoop ids fuel n) ∉ ids ∧
       n ≤ nextComponentIdLoop ids fuel n ∧
       ∀ m, n ≤ m → m < nextComponentIdLoop ids fuel n → cname m ∈ ids) := by
  intro fuel
  induction fuel with
  | zero =>
    intro n hex
    obtain ⟨k, hk, hnot⟩ := hex
    obtain rfl : k = 0 := Nat.le_zero.mp hk
    exact ⟨by simpa using hnot, le_refl n,
           fun m h1 h2 => absurd (lt_of_le_of_lt h1 h2) (lt_irrefl n)⟩
  | succ fuel ih =>
    intro n hex
    unfold nextComponentIdLoop
    by_cases hc : ids.contains (cname n) = true
    · rw [if_pos hc]
      have hmem : cname n ∈ ids := by simpa [List.contains] using hc
      obtain ⟨k, hk, hnot⟩ := hex
      have hkpos : k ≠ 0 := by
        rintro rfl
        exact (show cname n ∉ ids by simpa using hnot) hmem
      obtain ⟨k', rfl⟩ := Nat.exists_eq_succ_of_ne_zero hkpos
      obtain ⟨hnot', hle', hmin'⟩ := ih (n + 1)
        ⟨k', by omega, by rw [show n + 1 + k' = n + (k' + 1) from by omega]; exact hnot⟩
      refine ⟨hnot', by omega, ?_⟩
      intro m h1 h2
      rcases eq_or_lt_of_le h1 with rfl | hlt
      · exact hmem
      · exact hmin' m (by omega) h2
    · rw [if_neg hc]
      exact ⟨by simpa [List.contains] using hc, le_refl n,
             fun m h1 h2 => absurd (lt_of_le_of_lt h1 h2) (lt_irrefl n)⟩

theorem nextComponentId_spec (ids : List String) :
    cname (nextComponentId ids) ∉ ids ∧ 1 ≤ nextComponentId ids ∧
    ∀ m, 1 ≤ m → m < nextComponentId ids → cname m ∈ ids := by
  obtain ⟨k, hk, hnot⟩ := exists_unused_cname ids 1
  exact nextComponentIdLoop_spec ids (ids.length + 1) 1 ⟨k, by omega, hnot⟩

theorem convertNodes_ids_eq (ns : List CompactNode) :
    (convertNodes ns).2.2 = (convertNodes ns).2.1.map ComponentDoc.id := by
  induction ns with
  | nil => rfl
  | cons n rest ih =>
    by_cases hn : n.type ≠ "box" ∧ n.type ≠ "image"
    · rw [convertNodes_cons_unsupported n rest hn]
      exact ih
    · have hn' : n.type = "box" ∨ n.type = "image" := by
        by_contra hno
        push_neg at hno
        exact hn hno
      rw [convertNodes_cons_supported n rest hn']
      dsimp only
      rw [List.map_cons, ih]

/-- C4 (amended): for every compact document accepted by
`sceneDocFromCompact`, the reconstructed `state.nextId` is the smallest
positive `N` such that `c<N>` is used by no reconstructed component; in
particular the *first* id auto-minted by the Scene's counter after
`Scene.fromDoc` does not collide with any loaded component id.  (Later
mints can collide — see the counterexample.) -/
theorem reconstructed_nextId_spec (d : CompactDoc) (d' : SceneDoc) (ws : List CompactWarning)
    (h : sceneDocFromCompact d = .ok (d', ws)) :
    (¬ ∃ c ∈ d'.components, c.id = cname d'.state.nextId.toNat) ∧
    (∀ m : Nat, 1 ≤ m → m < d'.state.nextId.toNat → ∃ c ∈ d'.components, c.id = cname m) ∧
    (∀ s, Scene.fromDoc d' = .ok s →
      (s.nextComponentId).1 ∉ s.doc.components.map ComponentDoc.id) := by
  unfold sceneDocFromCompact at h
  cases hv : validateCompactDoc d with
  | error e => rw [hv] at h; cases h
  | ok u =>
    cases u
    rw [hv] at h
    dsimp only at h
    rcases hconv : convertNodes d.nodes with ⟨warnings, components, componentIds⟩
    rw [hconv] at h
    dsimp only at h
    injection h with h1
    injection h1 with hdoc hws
    have hids : componentIds = components.map ComponentDoc.id := by
      have hthis := convertNodes_ids_eq d.nodes
      rw [hconv] at hthis
      exact hthis
    obtain ⟨hnot, hpos, hmin⟩ := nextComponentId_spec componentIds
    have hnot' : cname (nextComponentId componentIds) ∉ components.map ComponentDoc.id := by
      rw [← hids]
      exact hnot
    have hmin' : ∀ m, 1 ≤ m → m < nextComponentId componentIds →
        cname m ∈ components.map ComponentDoc.id := by
      intro m h1 h2
      rw [← hids]
      exact hmin m h1 h2
    subst hdoc
    refine ⟨?_, ?_, ?_⟩
    · show ¬ ∃ c ∈ components, c.id = cname (nextComponentId componentIds)
      rintro ⟨c, hc, hceq⟩
      exact hnot' (List.mem_map.mpr ⟨c, hc, hceq⟩)
    · show ∀ m, 1 ≤ m → m < nextComponentId componentIds → ∃ c ∈ components, c.id = cname m
      intro m hm1 hm2
      obtain ⟨c, hc, hceq⟩ := List.mem_map.mp (hmin' m hm1 hm2)
      exact ⟨c, hc, hceq⟩
    · intro s hs
      unfold Scene.fromDoc at hs
      cases hvs : validateSceneDoc _ with
      | error e => rw [hvs] at hs; cases hs
      | ok u2 =>
        cases u2
        rw [hvs] at hs
        injection hs with hs1
        subst hs1
        show cname (nextComponentId componentIds) ∉ components.map ComponentDoc.id
        exact hnot'

/-- A compact document whose loaded ids are `c1` and `c3` (a gap at
`c2`). -/
def c4doc : CompactDoc :=
  { v := 1, w := 4, h := 8, layers := ["a"],
    nodes := [ { type := "box", id := "c1", layerId := "a", rect := [0, 0, 1, 1], meta := none },
               { type := "box", id := "c3", layerId := "a", rect := [1, 1, 1, 1], meta := none } ],
    meta := none }

/-- What `sceneDocFromCompact c4doc` reconstructs: `nextId = 2`. -/
def c4rt : SceneDoc :=
  { schemaVersion := 1, units := "px", size := { widthCells := 2, heightCells := 2 },
    layers := [{ id := "a", name := "a", visible := true }],
    components := [{ id := "c1", type := "box", layerId := "a",
                     rect := { x := 0, y := 0, w := 1, h := 1 }, meta := none },
                   { id := "c3", type := "box", layerId := "a",
                     rect := { x := 1, y := 1, w := 1, h := 1 }, meta := none }],
    state := { nextId := 2 }, meta := none }

/-- Counterexample for C4 as stated: loading `c4doc` gives `nextId = 2`,
and while the first auto-mint (`c2`) is fresh, the *second* auto-minted
id is `c3`, which collides with an id loaded from the file. -/
theorem reconstructed_nextId_counterexample :
    sceneDocFromCompact c4doc = .ok (c4rt, []) ∧
    (∃ s, Scene.fromDoc c4rt = .ok s ∧
      ((s.nextComponentId).2.nextComponentId).1 = "c3" ∧
      ∃ c ∈ c4rt.components, c.id = "c3") := by
  refine ⟨rfl, _, rfl, rfl, ?_⟩
  decide

/-- Witness for C4 (amended) at `c4doc`: `nextId = 2` is unused, every
smaller positive c-number (`c1`) is used, and the first mint after
`fromDoc` is fresh. -/
theorem reconstructed_nextId_spec_witness :
    (¬ ∃ c ∈ c4rt.components, c.id = cname c4rt.state.nextId.toNat) ∧
    (∀ m : Nat, 1 ≤ m → m < c4rt.state.nextId.toNat → ∃ c ∈ c4rt.components, c.id = cname m) ∧
    (∀ s, Scene.fromDoc c4rt = .ok s →
      (s.nextComponentId).1 ∉ s.doc.components.map ComponentDoc.id) :=
  reconstructed_nextId_spec c4doc c4rt [] rfl

/-! ### C8: render is deterministic and restores the active layer -/

/-- Two scenes that agree on everything except buffer contents and the
active-layer pointer: equal documents, dimensions, and layers after
clearing the buffers. -/
def ClearEq (a b : Scene) : Prop :=
  a.doc = b.doc ∧ a.widthCells = b.widthCells ∧ a.heightCells = b.heightCells ∧
  a.layers.map clearLayer = b.layers.map clearLayer

theorem clearEq_refl (a : Scene) : ClearEq a a := ⟨rfl, rfl, rfl, rfl⟩

theorem clearEq_trans {a b c : Scene} (h1 : ClearEq a b) (h2 : ClearEq b c) : ClearEq a c :=
  ⟨h1.1.trans h2.1, h1.2.1.trans h2.2.1, h1.2.2.1.trans h2.2.2.1, h1.2.2.2.trans h2.2.2.2⟩

theorem clearLayer_bufOr (l : Layer) (i m : Nat) :
    clearLayer { l with buffer := bufOr l.buffer i m } = clearLayer l := by
  unfold clearLayer bufOr
  simp

theorem updateFirstLayer_map_clear (ls : List Layer) (p : Layer → Bool) (f : Layer → Layer)
    (hf : ∀ l, clearLayer (f l) = clearLayer l) :
    (updateFirstLayer ls p f).map clearLayer = ls.map clearLayer := by
  induction ls with
  | nil => rfl
  | cons l rest ih =>
    unfold updateFirstLayer
    by_cases hp : p l
    · rw [if_pos hp]
      simp only [List.map_cons, hf l]
    · rw [if_neg hp]
      simp only [List.map_cons, ih]

theorem setPixel_clearEq (a : Scene) (x y : Int) : ClearEq (a.setPixel x y) a := by
  unfold Scene.setPixel
  cases hf : a.layers.find? (fun l => a.activeLayerId = some l.id) with
  | none => exact clearEq_refl a
  | some layer =>
    dsimp only
    split
    · exact clearEq_refl a
    · exact ⟨rfl, rfl, rfl,
        updateFirstLayer_map_clear a.layers _ _ (fun l => clearLayer_bufOr l _ _)⟩

theorem foldl_clearEq {β : Type} (g : Scene → β → Scene)
    (hg : ∀ a b, ClearEq (g a b) a) :
    ∀ (l : List β) (a : Scene), ClearEq (l.foldl g a) a := by
  intro l
  induction l with
  | nil => intro a; exact clearEq_refl a
  | cons b rest ih =>
    intro a
    rw [List.foldl_cons]
    exact clearEq_trans (ih (g a b)) (hg a b)

theorem drawBox_clearEq (a : Scene) (x y w h : Int) :
    ClearEq (a.drawBox x y w h) a := by
  unfold Scene.drawBox
  have hg1 : ∀ (a' : Scene) (k : Nat),
      ClearEq ((a'.setPixel (x + Int.ofNat k) y).setPixel (x + Int.ofNat k) (y + h - 1)) a' :=
    fun a' k => clearEq_trans (setPixel_clearEq _ _ _) (setPixel_clearEq a' _ _)
  have hg2 : ∀ (a' : Scene) (k : Nat),
      ClearEq ((a'.setPixel x (y + Int.ofNat k)).setPixel (x + w - 1) (y + Int.ofNat k)) a' :=
    fun a' k => clearEq_trans (setPixel_clearEq _ _ _) (setPixel_clearEq a' _ _)
  exact clearEq_trans (foldl_clearEq _ hg2 (List.range h.toNat) _)
    (foldl_clearEq _ hg1 (List.range w.toNat) a)

theorem rasterizeComponent_clearEq (a : Scene) (c : ComponentDoc) :
    ClearEq (rasterizeComponent a c) a := by
  unfold rasterizeComponent
  split
  · exact clearEq_refl a
  · cases hf : a.layers.find? (fun l => l.id = c.layerId) with
    | none => exact clearEq_refl a
    | some runtimeLayer =>
      dsimp only
      split
      · exact clearEq_refl a
      · exact clearEq_trans (drawBox_clearEq _ _ _ _ _) ⟨rfl, rfl, rfl, rfl⟩

theorem clearScene_rasterizeAll (s : Scene) :
    clearScene (rasterizeAll s) = clearScene s := by
  obtain ⟨h1, h2, h3, h4⟩ :=
    foldl_clearEq rasterizeComponent rasterizeComponent_clearEq s.doc.components s
  unfold rasterizeAll clearScene
  dsimp only
  rw [h1, h2, h3, h4]

theorem clearScene_idem (s : Scene) : clearScene (clearScene s) = clearScene s := by
  unfold clearScene
  dsimp only
  rw [List.map_map]
  have hfun : (clearLayer ∘ clearLayer) = clearLayer := by
    funext l
    show clearLayer (clearLayer l) = clearLayer l
    unfold clearLayer
    simp
  rw [hfun]

/-- C8: `render` with no overlay is deterministic and effectively pure:
rendering the scene returned by a first `render` call (same document,
visibility flags and active layer, buffers redrawn) produces the
identical output string, and after each call `activeLayerId` equals its
value before the call. -/
theorem render_deterministic (s : Scene) :
    ((s.render none).2.render none).1 = (s.render none).1 ∧
    (s.render none).2.activeLayerId = s.activeLayerId ∧
    ((s.render none).2.render none).2.activeLayerId = (s.render none).2.activeLayerId := by
  refine ⟨?_, rfl, rfl⟩
  show renderFromCleared colorGrayDefault none (clearScene ((s.render none).2)) =
       renderFromCleared colorGrayDefault none (clearScene s)
  have : clearScene ((s.render none).2) = clearScene s := by
    show clearScene (rasterizeAll (clearScene s)) = clearScene s
    rw [clearScene_rasterizeAll, clearScene_idem]
  rw [this]

end Glitter
